import Mathlib

/-!
# slowhttptest: the connection scheduler of `trunk/src/slowhttptest.cc`

A shallow embedding of `SlowHTTPTest` (constructor, `change_fd_limits`,
`get_random_extra`, the follow-up pattern set up by `init`, `report_status`,
`report_final` and the select loop of `run_test`) together
with the properties of the specification that can be settled on it.

Conventions.

* C `int` values are `Int`; `/` and `%` of C are `Int.tdiv` and `Int.tmod`
  (truncation towards zero).  A division whose divisor is zero is undefined
  behaviour in C; a function that executes one returns `none` (or
  `Step.trap`) here.
* Everything that comes from outside `slowhttptest.cc` in one turn of the
  loop (the result of `SlowSocket::init`, of `select`, of `recv_slow` and
  `send_slow`, the clock read by `gettimeofday`, the output of `rand` and of
  the text generator) is an input, collected in `TickEnv`.
* Fields marked *ghost* do not exist in the program: they record what
  happened (which follow-up sends were attempted, when connections were
  admitted) so that properties over a whole run can be stated.
-/

namespace slowhttptest

/-! ## Types declared in headers that are not part of the sources -/

/-- Modelled from the spec: the `SocketState` enumeration of `slowsocket.h`
(missing from the sources); its five values are the cases of the `switch` in
`report_status` and the states of section 4.2 of the specification. -/
inductive SocketState where
  | eInit
  | eConnecting
  | eConnected
  | eError
  | eClosed
  deriving DecidableEq

/-- Modelled from the spec: the `ExitStatusType` enumeration of
`slowhttptest.h` (missing from the sources), in the order of the table
`exit_status_msg` that it indexes. -/
inductive ExitStatusType where
  | eTimeLimit
  | eAllClosed
  | eHostNotAlive
  | eConnectionRefused
  | eUnexpectedError
  deriving DecidableEq

/-- Modelled from the spec: the `SlowTestType` enumeration of
`slowhttptest.h` (missing from the sources): header attack or body attack. -/
inductive SlowTestType where
  | eHeader
  | ePost
  deriving DecidableEq

/-- The integer value of an exit status, used as an array index. -/
def ExitStatusType.toNat : ExitStatusType → Nat
  | .eTimeLimit => 0
  | .eAllClosed => 1
  | .eHostNotAlive => 2
  | .eConnectionRefused => 3
  | .eUnexpectedError => 4

/-- Modelled from the spec: the part of a `SlowSocket` (class of
`slowsocket.h`, missing from the sources) that `run_test` reads through its
getters: `get_sockfd`, `get_state`, `get_requests_to_send`,
`get_followups_to_send`, `get_last_followup_timing`. -/
structure SlowSocket where
  sockfd : Int
  state : SocketState
  requests_to_send : Int
  followups_to_send : Int
  last_followup_timing : Int
  deriving DecidableEq

/-! ## Constants of the anonymous namespace -/

/-- The table `exit_status_msg` (lines 48-54), copied character by character. -/
def exit_status_msg : List String :=
  [ "Hit test time limit",
    "No open connections left",
    "Cannot esatblish connection",
    "Connection refused",
    "Unexpected error" ]

/-- The constant `header_prefix` (line 75). -/
def header_prefix : List Char := ['X', '-']

/-- The constant `header_separator` (line 76). -/
def header_separator : List Char := [':', ' ']

/-- The constant `body_prefix` (line 78). -/
def body_prefix : List Char := ['&']

/-- The constant `body_separator` (line 79). -/
def body_separator : List Char := ['=']

/-- The constant `crlf` (line 80): carriage return, line feed. -/
def crlf : List Char := [Char.ofNat 13, Char.ofNat 10]

/-! ## The test object -/

/-- The data members of `SlowHTTPTest` that the modelled functions use.
`prefix_`, `separator_` and `postfix_` are C strings; `postfix_` may be the
null pointer (`none`). -/
structure SlowHTTPTest where
  delay_ : Int
  duration_ : Int
  followup_timing_ : Int
  followup_cnt_ : Int
  num_connections_ : Int
  extra_data_max_len_ : Int
  seconds_passed_ : Int
  type_ : SlowTestType
  need_csv_ : Bool
  exit_status_ : ExitStatusType
  sock_ : List (Option SlowSocket)
  initializing_ : Int
  connecting_ : Int
  connected_ : Int
  errored_ : Int
  closed_ : Int
  prefix_ : List Char
  separator_ : List Char
  postfix_ : Option (List Char)
  deriving DecidableEq

/-- The constructor (lines 88-102).  `followup_cnt_` is `duration_ /
followup_timing_`, which is undefined for an interval of zero (`none`).  The
five counters and the three pattern strings are not initialised by the
constructor: their values are whatever `junk` and `junk_text` say. -/
def SlowHTTPTest.construct (delay duration interval con_cnt max_random_data_len : Int)
    (type : SlowTestType) (need_csv : Bool) (junk : Nat → Int)
    (junk_text : Nat → List Char) : Option SlowHTTPTest :=
  if interval = 0 then none
  else some
    { delay_ := delay
      duration_ := duration
      followup_timing_ := interval
      followup_cnt_ := Int.tdiv duration interval
      num_connections_ := con_cnt
      extra_data_max_len_ := max_random_data_len
      seconds_passed_ := 0
      type_ := type
      need_csv_ := need_csv
      exit_status_ := .eUnexpectedError
      sock_ := []
      initializing_ := junk 0
      connecting_ := junk 1
      connected_ := junk 2
      errored_ := junk 3
      closed_ := junk 4
      prefix_ := junk_text 0
      separator_ := junk_text 1
      postfix_ := some (junk_text 2) }

/-- The status line of `report_final` (line 274): the entry of
`exit_status_msg` at index `exit_status_`. -/
def report_final_status (t : SlowHTTPTest) : String :=
  exit_status_msg.getD t.exit_status_.toNat ""

/-! ## Termination evaluation of `run_test` (lines 440-455) -/

/-- The four `break` statements of the loop of `run_test`. -/
inductive LoopExit where
  | timeLimit
  | allClosed
  | grace
  | selectFailed
  deriving DecidableEq

/-- Lines 440-455.  `none`: no `break` is taken and the loop goes on to
`select`.  `some (b, a)`: the `break` `b` is taken, after `exit_status_` was
assigned `a` (`none` when the path assigns nothing).  The counters read here
are the members last written by `report_status`. -/
def evaluate (t : SlowHTTPTest) (active_sock_num : Int) :
    Option (LoopExit × Option ExitStatusType) :=
  if t.seconds_passed_ > t.duration_ then
    some (.timeLimit, some .eTimeLimit)
  else if active_sock_num = 0 then
    some (.allClosed, some .eAllClosed)
  else if t.seconds_passed_ > 10 ∧ t.connected_ = 0 then
    if t.connecting_ > 0 ∧ t.closed_ = 0 then
      some (.grace, some .eHostNotAlive)
    else if t.closed_ > 0 ∧ t.connecting_ ≥ 0 then
      some (.grace, some .eConnectionRefused)
    else
      some (.grace, none)
  else
    none

/-! ## `change_fd_limits` (lines 115-139) -/

/-- The two fields of the C `rlimit` structure; `rlim_t` is an unsigned
64-bit integer. -/
structure rlimit where
  rlim_cur : Nat
  rlim_max : Nat
  deriving DecidableEq

/-- The constant `RLIM_INFINITY`: the largest value of `rlim_t`. -/
def RLIM_INFINITY : Nat := 2 ^ 64 - 1

/-- The cast `(unsigned) x` of an `int` to a 32-bit `unsigned int`. -/
@[irreducible]
def to_unsigned (x : Int) : Nat := (x % 2 ^ 32).toNat

/-- The conversion of an `int` to `rlim_t` in `fd_limit.rlim_cur = ...`. -/
@[irreducible]
def to_rlim (x : Int) : Nat := (x % 2 ^ 64).toNat

/-- The conversion to a 32-bit two's complement `int` in
`num_connections_ = ...`: the value is reduced modulo `2 ^ 32` into the range
of `int`. -/
@[irreducible]
def to_int (x : Int) : Int :=
  if x % 2 ^ 32 < 2 ^ 31 then x % 2 ^ 32 else x % 2 ^ 32 - 2 ^ 32

/-- What `change_fd_limits` leaves behind: its return value, the object and
the limit handed to `setrlimit` (`none` when `setrlimit` is not called). -/
structure FdLimits where
  ok : Bool
  self : SlowHTTPTest
  requested : Option rlimit

/-- Lines 115-139.  `getrlimit` is the limit pair the system call returned
(`none` when it failed), `setrlimit_ok` whether `setrlimit` succeeds.
`fd_limit.rlim_max - 5` is computed in `rlim_t`, that is modulo `2 ^ 64`. -/
def change_fd_limits (t : SlowHTTPTest) (getrlimit : Option rlimit)
    (setrlimit_ok : Bool) : FdLimits :=
  match getrlimit with
  | none => { ok := false, self := t, requested := none }
  | some fd_limit =>
    if fd_limit.rlim_cur ≠ RLIM_INFINITY ∧
        fd_limit.rlim_cur < to_unsigned (t.num_connections_ + 5) then
      if fd_limit.rlim_max = RLIM_INFINITY ∨
          fd_limit.rlim_max > to_unsigned (t.num_connections_ + 5) then
        { ok := setrlimit_ok
          self := t
          requested := some { fd_limit with rlim_cur := to_rlim (t.num_connections_ + 5) } }
      else
        { ok := setrlimit_ok
          self := { t with
            num_connections_ := to_int (((fd_limit.rlim_max : Int) - 5) % 2 ^ 64) }
          requested := some { fd_limit with rlim_cur := fd_limit.rlim_max } }
    else
      { ok := true, self := t, requested := none }

/-! ## `get_random_extra` (lines 141-155) and the pattern set by `init` -/

/-- Lines 141-155.  `rand1`, `rand2` are the two results of `rand` and
`text1`, `text2` the two strings returned by the text generator
(`text-generator.h` is not part of the sources).  `name_len` and
`value_len` are computed and never used, but their computation divides by
`extra_data_max_len_ / 2`: when that is zero the call is undefined (`none`).
The result is the content of `random_extra_`. -/
def get_random_extra (t : SlowHTTPTest) (rand1 rand2 : Int)
    (text1 text2 : List Char) : Option (List Char) :=
  if Int.tdiv t.extra_data_max_len_ 2 = 0 then none
  else
    let _name_len := Int.tmod rand1 (Int.tdiv t.extra_data_max_len_ 2) + 1
    let _value_len := Int.tmod rand2 (Int.tdiv t.extra_data_max_len_ 2) + 1
    let random_extra_ := t.prefix_ ++ text1 ++ t.separator_ ++ text2
    match t.postfix_ with
    | some p => some (random_extra_ ++ p)
    | none => some random_extra_

/-- Lines 180-201 of `init`: the follow-up data pattern chosen from `type_`
(the verb is not modelled). -/
def init_pattern (t : SlowHTTPTest) : SlowHTTPTest :=
  if t.type_ = .eHeader then
    { t with separator_ := header_separator, prefix_ := header_prefix, postfix_ := some crlf }
  else
    { t with separator_ := body_separator, prefix_ := body_prefix, postfix_ := none }

/-- The function `init` (lines 157-232) as far as it touches the modelled
members: the descriptor limits, the two early returns (`url_ok`: the URL
parses, `addr_ok`: `getaddrinfo` succeeds) and the follow-up pattern.  The
request template and the reports are not modelled. -/
def init (t : SlowHTTPTest) (getrlimit : Option rlimit) (setrlimit_ok : Bool)
    (url_ok addr_ok : Bool) : Bool × SlowHTTPTest :=
  let t1 := (change_fd_limits t getrlimit setrlimit_ok).self
  if !url_ok then (false, t1)
  else if !addr_ok then (false, t1)
  else (true, init_pattern t1)

/-! ## `report_status` (lines 303-367) -/

/-- One turn of the loop of `report_status` (lines 313-335): a null entry is
skipped, otherwise the counter of the socket's state is incremented. -/
def tally (t : SlowHTTPTest) : Option SlowSocket → SlowHTTPTest
  | none => t
  | some k =>
    match k.state with
    | .eInit => { t with initializing_ := t.initializing_ + 1 }
    | .eConnecting => { t with connecting_ := t.connecting_ + 1 }
    | .eConnected => { t with connected_ := t.connected_ + 1 }
    | .eError => { t with errored_ := t.errored_ + 1 }
    | .eClosed => { t with closed_ := t.closed_ + 1 }

/-- Lines 303-367: the five counters are reset and recomputed from all of
`sock_`.  The argument only selects the output format; the output itself is
not modelled. -/
def report_status (t : SlowHTTPTest) (_to_stats : Bool) : SlowHTTPTest :=
  t.sock_.foldl tally
    { t with initializing_ := 0, connecting_ := 0, connected_ := 0, errored_ := 0, closed_ := 0 }

/-! ## The select loop of `run_test` (lines 369-570) -/

/-- What the outside world answers to the calls made on one connection in
one turn of the loop: the return value of `recv_slow` and whether `errno` is
`EAGAIN` after it, the same for `send_slow`, the values the getters
`get_requests_to_send` and `get_followups_to_send` return after `send_slow`,
and what `rand` and the text generator give to `get_random_extra`. -/
structure SockIo where
  recv_ret : Int
  recv_eagain : Bool
  send_ret : Int
  send_eagain : Bool
  requests_left : Int
  followups_left : Int
  rand1 : Int
  rand2 : Int
  text1 : List Char
  text2 : List Char

/-- The inputs of one turn of the loop: the result of `SlowSocket::init`
(`init_sock` holds what the getters of the new socket return), the result of
`select` and the descriptors it reports ready, the whole seconds of
`now - start` after `gettimeofday`, the per-connection answers, and the real
time in microseconds the turn takes apart from the pause it asks `usleep` for
(ghost: the program does not measure it; the properties on pacing say what
they assume about it). -/
structure TickEnv where
  init_ok : Bool
  init_sock : SlowSocket
  select_result : Int
  rd_ready : Int → Bool
  wr_ready : Int → Bool
  elapsed_sec : Int
  io : Nat → SockIo
  work_us : Nat

/-- The locals `readfds`, `writefds`, `active_sock_num` and `wr`; a
descriptor set is the list of the descriptors that were `FD_SET`. -/
structure FdSets where
  readfds : List Int
  writefds : List Int
  active_sock_num : Int
  wr : Int

/-- Ghost: one attempted follow-up send (the call of `send_slow` at line
527): the value of `seconds_passed_`, the index of the connection, and what
`get_requests_to_send` and `get_followups_to_send` returned when the branch
was entered. -/
structure Attempt where
  sec : Int
  conn : Nat
  requests : Int
  followups : Int
  deriving DecidableEq

/-- The object together with the locals of `run_test` that live across
turns.  Ghost fields: `clock_us` (real microseconds since the loop started),
`admitted_at` (the clock at each `++num_connected`, latest first), `created`
(number of `new SlowSocket()` executed), `followups_tried` (latest first) and
`ever_connected` (some socket was given the state `eConnected`). -/
structure Loop where
  self : SlowHTTPTest
  num_connected : Nat
  tv_delay_usec : Int
  heartbeat_reported : Int
  csv_reported : Int
  progress_timer_sec : Int
  clock_us : Nat
  admitted_at : List Nat
  created : Nat
  followups_tried : List Attempt
  ever_connected : Bool

/-- The effect of `std::vector::resize` on `sock_`: new entries are null. -/
def resize (l : List (Option SlowSocket)) (n : Nat) : List (Option SlowSocket) :=
  l.take n ++ List.replicate (n - l.length) none

/-- Lines 370-390: the state with which the loop is entered.  `1000000 /
delay_` is undefined for a rate of zero, and `resize` throws for a negative
count (it is converted to an unsigned size): both give `none`. -/
def run_test_start (t : SlowHTTPTest) : Option Loop :=
  if t.delay_ = 0 then none
  else if t.num_connections_ < 0 then none
  else some
    { self := { t with sock_ := resize t.sock_ t.num_connections_.toNat }
      num_connected := 0
      tv_delay_usec := Int.tdiv 1000000 t.delay_
      heartbeat_reported := 1
      csv_reported := 1
      progress_timer_sec := 0
      clock_us := 0
      admitted_at := []
      created := 0
      followups_tried := []
      ever_connected := false }

/-- Lines 396-409: at most one new connection per turn.  A socket whose
`init` fails is left in `sock_` in state `eError` and admission stops. -/
def admission (e : TickEnv) (s : Loop) : Loop :=
  if (s.num_connected : Int) < s.self.num_connections_ then
    if e.init_ok then
      { s with
        self := { s.self with
          sock_ := s.self.sock_.set s.num_connected
            (some { e.init_sock with state := .eConnecting }) }
        num_connected := s.num_connected + 1
        created := s.created + 1
        admitted_at := s.clock_us :: s.admitted_at }
    else
      { s with
        self := { s.self with
          sock_ := s.self.sock_.set s.num_connected
            (some { e.init_sock with state := .eError })
          num_connections_ := s.num_connected }
        created := s.created + 1 }
  else s

/-- Lines 414-428, the body of the first `for` loop for a non-null socket. -/
def watch_one (t : SlowHTTPTest) (k : SlowSocket) (a : FdSets) : SlowSocket × FdSets :=
  if k.sockfd > 0 then
    let a1 := { a with readfds := k.sockfd :: a.readfds, active_sock_num := a.active_sock_num + 1 }
    if k.requests_to_send > 0 then
      (k, { a1 with wr := a1.wr + 1, writefds := k.sockfd :: a1.writefds })
    else if k.followups_to_send > 0 ∧
        (t.seconds_passed_ > 0 ∧ Int.tmod t.seconds_passed_ t.followup_timing_ = 0) then
      if k.last_followup_timing ≠ t.seconds_passed_ then
        ({ k with last_followup_timing := t.seconds_passed_ },
          { a1 with wr := a1.wr + 1, writefds := k.sockfd :: a1.writefds })
      else (k, a1)
    else (k, a1)
  else (k, a)

/-- Lines 413-429: `for(int i = 0; i < num_connected; ++i)` over `sock_`;
the first argument is the number of indices still to visit. -/
def watch_loop (t : SlowHTTPTest) :
    Nat → List (Option SlowSocket) → FdSets → List (Option SlowSocket) × FdSets
  | 0, l, a => (l, a)
  | _ + 1, [], a => ([], a)
  | n + 1, none :: l, a =>
    let r := watch_loop t n l a
    (none :: r.1, r.2)
  | n + 1, some k :: l, a =>
    let w := watch_one t k a
    let r := watch_loop t n l w.2
    (some w.1 :: r.1, r.2)

/-- Lines 410-429: `seconds_passed_` is refreshed and the descriptor sets are
built. -/
def watch (s : Loop) : Loop × FdSets :=
  let t := { s.self with seconds_passed_ := s.progress_timer_sec }
  let r := watch_loop t s.num_connected t.sock_
    { readfds := [], writefds := [], active_sock_num := 0, wr := 0 }
  ({ s with self := { t with sock_ := r.1 } }, r.2)

/-- Lines 430-434: the status for the CSV file, once per value of
`seconds_passed_`. -/
def report_csv (s : Loop) : Loop :=
  if s.self.need_csv_ = true ∧ s.csv_reported ≠ s.self.seconds_passed_ then
    { s with self := report_status s.self true, csv_reported := s.self.seconds_passed_ }
  else s

/-- Lines 435-439: the heartbeat, when `seconds_passed_` is a multiple of 5. -/
def report_heartbeat (s : Loop) : Loop :=
  if Int.tmod s.self.seconds_passed_ 5 = 0 ∧ s.heartbeat_reported ≠ s.self.seconds_passed_ then
    { s with self := report_status s.self false, heartbeat_reported := s.self.seconds_passed_ }
  else s

/-- Lines 430-439: the two periodic calls of `report_status`. -/
def reports (s : Loop) : Loop :=
  report_heartbeat (report_csv s)

/-- Modelled from the spec: `SlowSocket::close` (missing from the sources)
releases the socket handle; the record stays in `sock_`. -/
def close_sock (k : SlowSocket) : SlowSocket := { k with sockfd := -1 }

/-- A serviced socket and whether a follow-up send was attempted on it. -/
structure Serviced where
  sock : SlowSocket
  followup_tried : Bool

/-- Lines 472-560, the body of the second `for` loop for a non-null socket;
`readfds` and `writefds` are the sets as `select` left them.  `none`: the
call of `get_random_extra` is undefined. -/
def service_one (t : SlowHTTPTest) (readfds writefds : List Int) (io : SockIo)
    (k : SlowSocket) : Option Serviced :=
  if k.sockfd > 0 then
    if k.sockfd ∈ readfds ∧ (io.recv_ret ≤ 0 ∧ io.recv_eagain = false) then
      some { sock := close_sock { k with state := .eClosed }, followup_tried := false }
    else if k.sockfd ∈ writefds then
      if k.requests_to_send > 0 then
        let k1 := { k with requests_to_send := io.requests_left }
        if io.send_ret ≤ 0 ∧ io.send_eagain = false then
          some { sock := close_sock { k1 with state := .eClosed }, followup_tried := false }
        else if io.send_ret > 0 then
          some { sock := { k1 with state := .eConnected }, followup_tried := false }
        else
          some { sock := k1, followup_tried := false }
      else if k.followups_to_send > 0 ∧
          (t.seconds_passed_ > 0 ∧ Int.tmod t.seconds_passed_ t.followup_timing_ = 0) then
        match get_random_extra t io.rand1 io.rand2 io.text1 io.text2 with
        | none => none
        | some _ =>
          let k1 := { k with followups_to_send := io.followups_left }
          if io.send_ret ≤ 0 ∧ io.send_eagain = false then
            some { sock := close_sock { k1 with state := .eClosed }, followup_tried := true }
          else
            some { sock := k1, followup_tried := true }
      else
        some { sock := k, followup_tried := false }
    else
      some { sock := k, followup_tried := false }
  else
    some { sock := k, followup_tried := false }

/-- Lines 471-561: `for(int i = 0; i < num_connected; i++)` over `sock_`; the
first argument is the number of indices still to visit, the second the
current index.  The result also lists the follow-up sends attempted. -/
def service_loop (t : SlowHTTPTest) (readfds writefds : List Int) (io : Nat → SockIo) :
    Nat → Nat → List (Option SlowSocket) → Option (List (Option SlowSocket) × List Attempt)
  | 0, _, l => some (l, [])
  | _ + 1, _, [] => some ([], [])
  | n + 1, i, none :: l =>
    match service_loop t readfds writefds io n (i + 1) l with
    | none => none
    | some r => some (none :: r.1, r.2)
  | n + 1, i, some k :: l =>
    match service_one t readfds writefds (io i) k with
    | none => none
    | some v =>
      match service_loop t readfds writefds io n (i + 1) l with
      | none => none
      | some r =>
        some (some v.sock :: r.1,
          if v.followup_tried = true then
            r.2 ++ [{ sec := t.seconds_passed_, conn := i,
                      requests := k.requests_to_send, followups := k.followups_to_send }]
          else r.2)

/-- Whether some socket of the list is in state `eConnected`. -/
def any_connected (l : List (Option SlowSocket)) : Bool :=
  l.any fun o =>
    match o with
    | some k => decide (k.state = .eConnected)
    | none => false

/-- The result of one turn of the loop. -/
inductive Step where
  | next (s : Loop)
  | leave (s : Loop) (why : LoopExit)
  | trap

/-- The set `readfds` as `select` leaves it (lines 460-461): `select` can
only clear descriptors. -/
def ready_read (e : TickEnv) (fds : FdSets) : List Int :=
  fds.readfds.filter e.rd_ready

/-- The set `writefds` as `select` leaves it (lines 460-461); it is not
handed to `select` when `wr` is zero. -/
def ready_write (e : TickEnv) (fds : FdSets) : List Int :=
  if fds.wr ≠ 0 then fds.writefds.filter e.wr_ready else fds.writefds

/-- Lines 467-562: the servicing of the sockets when `select` returned a
positive number; nothing is done when it returned zero. -/
def serve (e : TickEnv) (s : Loop) (fds : FdSets) :
    Option (List (Option SlowSocket) × List Attempt) :=
  if e.select_result = 0 then some (s.self.sock_, [])
  else
    service_loop s.self (ready_read e fds) (ready_write e fds) e.io s.num_connected 0
      s.self.sock_

/-- Lines 564-567: the microseconds asked of `usleep` at the end of a turn. -/
def pause (s : Loop) : Nat :=
  if (s.num_connected : Int) < s.self.num_connections_ then s.tv_delay_usec.toNat else 0

/-- Lines 456-568: `select`, `gettimeofday`, the servicing of the ready
sockets and the pause. -/
def after_select (e : TickEnv) (s : Loop) (fds : FdSets) : Step :=
  if e.select_result < 0 then
    .leave { s with progress_timer_sec := e.elapsed_sec } .selectFailed
  else
    match serve e s fds with
    | none => .trap
    | some r =>
      .next { s with
        self := { s.self with sock_ := r.1 }
        progress_timer_sec := e.elapsed_sec
        followups_tried := r.2 ++ s.followups_tried
        ever_connected := s.ever_connected || any_connected r.1
        clock_us := s.clock_us + e.work_us + pause s }

/-- One turn of the `while(true)` loop (lines 393-568). -/
def tick (e : TickEnv) (s : Loop) : Step :=
  let w := watch (admission e s)
  let s3 := reports w.1
  match evaluate s3.self w.2.active_sock_num with
  | some (b, a) =>
    .leave { s3 with self := { s3.self with exit_status_ := a.getD s3.self.exit_status_ } } b
  | none => after_select e s3 w.2

/-- How a run over a finite list of inputs ends: the loop was left, an
undefined operation was executed, or the inputs ran out with the loop still
going (in state `s`). -/
inductive Outcome where
  | finished (s : Loop) (why : LoopExit)
  | trapped
  | running (s : Loop)

/-- The loop of `run_test`, one element of the list per turn. -/
def run : List TickEnv → Loop → Outcome
  | [], s => .running s
  | e :: es, s =>
    match tick e s with
    | .next s1 => run es s1
    | .leave s1 why => .finished s1 why
    | .trap => .trapped

/-- The function `run_test` (lines 369-570). -/
def run_test (t : SlowHTTPTest) (envs : List TickEnv) : Outcome :=
  match run_test_start t with
  | none => .trapped
  | some s => run envs s

/-- The object as it is when `run_test` is called: constructed, and `init`
has returned `true`. -/
def prepare (delay duration interval con_cnt max_random_data_len : Int)
    (type : SlowTestType) (need_csv : Bool) (junk : Nat → Int) (junk_text : Nat → List Char)
    (getrlimit : Option rlimit) (setrlimit_ok url_ok addr_ok : Bool) : Option SlowHTTPTest :=
  match SlowHTTPTest.construct delay duration interval con_cnt max_random_data_len type
      need_csv junk junk_text with
  | none => none
  | some t0 =>
    let r := init t0 getrlimit setrlimit_ok url_ok addr_ok
    if r.1 = true then some r.2 else none

/-! ## `report_final` (lines 238-279) -/

/-- Modelled from the spec: the timestamps of a `SlowSocket` (class of
`slowsocket.h`, missing from the sources) that `report_final` reads through
`get_start`, `get_connected` and `get_stop`, in milliseconds: the creation
timestamp, the connected timestamp (0 if never connected) and the closed
timestamp (0 if still open).  They are `long` values, far from the limits of
that type, and are not reduced modulo `2 ^ 64` here. -/
structure Timestamps where
  start : Int
  connected : Int
  stop : Int
  deriving DecidableEq

/-- The locals `connect_times` and `life_times` of `report_final`. -/
structure Samples where
  connect_times : List Int
  life_times : List Int
  deriving DecidableEq

/-- Lines 254-266: the body of the loop for one socket with timestamps `k`;
`n` is the clock read at line 248, in milliseconds. -/
def sample_one (n : Int) (k : Timestamps) (v : Samples) : Samples :=
  let a := k.start
  let b := k.connected
  let c := if k.stop ≠ 0 then k.stop else n
  let v1 := if a ≠ 0 ∧ b ≠ 0 then { v with connect_times := v.connect_times ++ [b - a] } else v
  if c ≠ 0 ∧ a ≠ 0 then { v1 with life_times := v1.life_times ++ [c - a] } else v1

/-- Lines 253-267: the loop over all of `sock_`, from entry `i` on.  Every
entry is dereferenced without a test, which is undefined for a null entry
(`none`).  `stamps i` holds what the three getters of `sock_[i]` return. -/
def sample_loop (n : Int) (stamps : Nat → Timestamps) :
    Nat → List (Option SlowSocket) → Samples → Option Samples
  | _, [], v => some v
  | _, none :: _, _ => none
  | i, some _ :: rest, v => sample_loop n stamps (i + 1) rest (sample_one n (stamps i) v)

/-- The conversion of an `int` to `size_t` (64 bits, unsigned) that the
division of an `int` by the result of `size()` performs on its left
operand. -/
@[irreducible]
def to_size_t (x : Int) : Nat := (x % 2 ^ 64).toNat

/-- The call `std::accumulate(v.begin(), v.end(), 0)`: the accumulator has the
type of the initial value `0`, which is `int`, so every partial sum is
converted back to `int`. -/
def accumulate (v : List Int) : Int :=
  v.foldl (fun acc x => to_int (acc + x)) 0

/-- The expression `std::accumulate(v.begin(), v.end(), 0) / v.size()` of
lines 275-278: an unsigned division, undefined when the vector is empty. -/
def average (v : List Int) : Option Nat :=
  if v.length = 0 then none else some (to_size_t (accumulate v) / v.length)

/-- The four values that `report_final` hands to `slowlog` at line 269. -/
structure FinalReport where
  seconds_passed : Int
  status : String
  average_connect_time : Nat
  average_lifetime : Nat
  deriving DecidableEq

/-- The function `report_final` (lines 238-279).  `stamps` are the timestamps
of the sockets and `n` is the clock in milliseconds.  The result is `none`
when the function dereferences a null entry of `sock_` or divides by the
size of an empty vector. -/
def report_final (t : SlowHTTPTest) (stamps : Nat → Timestamps) (n : Int) :
    Option FinalReport :=
  match sample_loop n stamps 0 t.sock_ { connect_times := [], life_times := [] } with
  | none => none
  | some v =>
    match average v.connect_times, average v.life_times with
    | some x, some y =>
      some { seconds_passed := t.seconds_passed_, status := report_final_status t
             average_connect_time := x, average_lifetime := y }
    | _, _ => none

/-! ## Quantities the properties speak about -/

/-- The sum of the five counters written by `report_status`. -/
def counters_sum (t : SlowHTTPTest) : Int :=
  t.errored_ + t.closed_ + t.connecting_ + t.connected_ + t.initializing_

/-- The number of non-null entries of `sock_`. -/
def objects (l : List (Option SlowSocket)) : Nat :=
  l.countP fun o => o.isSome

/-- The number of connections among the first `n` entries of `sock_` whose
socket is open (`get_sockfd() > 0`). -/
def open_sockets (n : Nat) (l : List (Option SlowSocket)) : Nat :=
  (l.take n).countP fun o =>
    match o with
    | some k => decide (k.sockfd > 0)
    | none => false

/-- The number of non-null entries of `sock_` whose state is `st`. -/
def state_count (st : SocketState) (l : List (Option SlowSocket)) : Nat :=
  l.countP fun o =>
    match o with
    | some k => decide (k.state = st)
    | none => false

/-- The state in which a run stopped or stands, if there is one. -/
def Outcome.state : Outcome → Option Loop
  | .finished s _ => some s
  | .running s => some s
  | .trapped => none

/-- The `break` by which a run left the loop, if it did. -/
def Outcome.exit : Outcome → Option LoopExit
  | .finished _ why => some why
  | _ => none

/-- The number of admissions logged with a clock value in the window of one
second (`1000000` microseconds) that starts at `from_us`. -/
def admitted_within (from_us : Nat) (log : List Nat) : Nat :=
  log.countP fun at_us => decide (from_us ≤ at_us ∧ at_us < from_us + 1000000)

/-- The descriptors of the open sockets of a list of entries. -/
def fds_of (l : List (Option SlowSocket)) : List Int :=
  l.filterMap fun o =>
    match o with
    | some k => if k.sockfd > 0 then some k.sockfd else none
    | none => none

/-- The descriptors of the open sockets among the first `n` entries. -/
def open_fds (n : Nat) (l : List (Option SlowSocket)) : List Int :=
  fds_of (l.take n)

/-- Modelled from the spec: the constant `FD_SETSIZE` of the system header
`<sys/select.h>` (the size of an `fd_set`, 1024 on Linux).  `FD_SET` and
`FD_ISSET` are undefined for a descriptor that is not below it; the lists
that stand for descriptor sets here describe them only for descriptors below
it. -/
def FD_SETSIZE : Int := 1024

/-- An assumption about the descriptor that one turn obtains for a new
socket, given the state at the start of the turn: it is not the descriptor
of a socket that is still open, and it is below `FD_SETSIZE`. -/
def Distinct (e : TickEnv) (s : Loop) : Prop :=
  (s.num_connected : Int) < s.self.num_connections_ → e.init_ok = true →
    e.init_sock.sockfd ∉ open_fds s.num_connected s.self.sock_ ∧
      e.init_sock.sockfd < FD_SETSIZE

/-- Whether a turn is `Distinct` can be computed. -/
instance distinct_decidable (e : TickEnv) (s : Loop) : Decidable (Distinct e s) :=
  inferInstanceAs (Decidable
    ((s.num_connected : Int) < s.self.num_connections_ → e.init_ok = true →
      e.init_sock.sockfd ∉ open_fds s.num_connected s.self.sock_ ∧
        e.init_sock.sockfd < FD_SETSIZE))

/-- The two assumptions for one turn, given the state at its start: the
clock read at the end of the turn is not behind the one read before, and
the descriptor of a new socket is `Distinct`. -/
def Orderly (e : TickEnv) (s : Loop) : Prop :=
  s.progress_timer_sec ≤ e.elapsed_sec ∧ Distinct e s

/-- Whether a turn is `Orderly` can be computed. -/
instance orderly_decidable (e : TickEnv) (s : Loop) : Decidable (Orderly e s) :=
  inferInstanceAs (Decidable (s.progress_timer_sec ≤ e.elapsed_sec ∧ Distinct e s))

/-- The assumption `Orderly` along a whole run. -/
def OrderlyRun : List TickEnv → Loop → Prop
  | [], _ => True
  | e :: es, s =>
    Orderly e s ∧
      match tick e s with
      | .next s1 => OrderlyRun es s1
      | _ => True

/-- The assumption `OrderlyRun`, computed. -/
def orderly_run_check : List TickEnv → Loop → Bool
  | [], _ => true
  | e :: es, s =>
    decide (Orderly e s) &&
      match tick e s with
      | .next s1 => orderly_run_check es s1
      | _ => true

/-- Whether `report_final` takes a connect-time sample from a socket with
timestamps `k` (the test of line 257). -/
def connect_sampled (k : Timestamps) : Bool :=
  decide (k.start ≠ 0 ∧ k.connected ≠ 0)

/-- Whether `report_final` takes a lifetime sample from a socket with
timestamps `k` when the clock reads `n` (the test of line 262). -/
def life_sampled (n : Int) (k : Timestamps) : Bool :=
  decide ((if k.stop ≠ 0 then k.stop else n) ≠ 0 ∧ k.start ≠ 0)

/-! ## Invariants of the loop -/

/-- Two entries of `sock_` at the same index, before and after a step: a
null entry stays null, a socket stays a socket, related by `R`. -/
def Evolves (R : SlowSocket → SlowSocket → Prop) :
    Option SlowSocket → Option SlowSocket → Prop
  | none, none => True
  | some a, some b => R a b
  | _, _ => False

/-- The states of a socket whose `init` succeeded. -/
def live (k : SlowSocket) : Prop :=
  k.state = .eConnecting ∨ k.state = .eConnected ∨ k.state = .eClosed

/-- Some socket among the first `n` entries is in a state of `live`. -/
def has_live (n : Nat) (l : List (Option SlowSocket)) : Prop :=
  ∃ k, some k ∈ l.take n ∧ live k

/-- The counters as `report_status` leaves them when a socket is `live`. -/
def counted (t : SlowHTTPTest) : Prop :=
  0 ≤ t.connecting_ ∧ 0 ≤ t.closed_ ∧ 0 ≤ t.connected_ ∧
    1 ≤ t.connecting_ + t.connected_ + t.closed_

/-- What holds at the head of every turn of a run that started from a
freshly constructed object: `exit_status_` still has the value the
constructor gave it, `sock_` is at least as long as the target, and either
this is the first turn or a socket is `live` and was counted. -/
def Started (s : Loop) : Prop :=
  s.self.exit_status_ = .eUnexpectedError ∧
  s.self.num_connections_ ≤ s.self.sock_.length ∧
  ((s.num_connected = 0 ∧ s.progress_timer_sec = 0 ∧ s.heartbeat_reported = 1) ∨
    (has_live s.num_connected s.self.sock_ ∧ counted s.self))

/-- What holds of `sock_` at the head of every turn of a run that started
from a fresh object: it is at least as long as the target, the entries from
index `num_connected` on are null while admission is open, and its non-null
entries are the objects created so far. -/
def Filled (s : Loop) : Prop :=
  s.self.num_connections_ ≤ s.self.sock_.length ∧
  ((s.num_connected : Int) < s.self.num_connections_ →
    ∀ o ∈ s.self.sock_.drop s.num_connected, o = none) ∧
  objects s.self.sock_ = s.created

/-- What holds of the admission log at the head of every turn: two
admissions are at least the pause `tv_delay.tv_usec` apart, and while
admission is open the pause has passed since the last one. -/
def Paced (s : Loop) : Prop :=
  s.admitted_at.Pairwise (fun later earlier => earlier + s.tv_delay_usec.toNat ≤ later) ∧
  ((s.num_connected : Int) < s.self.num_connections_ →
    ∀ y ∈ s.admitted_at, y + s.tv_delay_usec.toNat ≤ s.clock_us)

/-- What holds of the admission log at the head of every turn when every
turn takes at least `w` microseconds apart from its pause: two admissions
are at least the pause plus `w` apart, and while admission is open that
much time has passed since the last one. -/
def Spaced (w : Nat) (s : Loop) : Prop :=
  s.admitted_at.Pairwise
    (fun later earlier => earlier + (s.tv_delay_usec.toNat + w) ≤ later) ∧
  ((s.num_connected : Int) < s.self.num_connections_ →
    ∀ y ∈ s.admitted_at, y + (s.tv_delay_usec.toNat + w) ≤ s.clock_us)

/-- An object on which `run_test` has not run yet: `exit_status_` has the
value the constructor gave it and `sock_` is empty. -/
def Fresh (t : SlowHTTPTest) : Prop :=
  t.exit_status_ = .eUnexpectedError ∧ t.sock_ = []

/-! ## Concrete inputs -/

/-- A connection on which every call would block: `recv_slow` and
`send_slow` return `-1` with `errno == EAGAIN`. -/
def silent : SockIo :=
  { recv_ret := -1, recv_eagain := true, send_ret := -1, send_eagain := true
    requests_left := 1, followups_left := 0, rand1 := 0, rand2 := 0
    text1 := ['a'], text2 := ['b'] }

/-- A socket as `SlowSocket::init` leaves it: descriptor `fd`, the request
still to send, `followup_cnt` follow-ups to send, no follow-up sent yet. -/
def new_sock (fd followup_cnt : Int) : SlowSocket :=
  { sockfd := fd, state := .eInit, requests_to_send := 1
    followups_to_send := followup_cnt, last_followup_timing := 0 }

/-- A turn in which `select` reports nothing ready (it returns `0`); `init`
would succeed with descriptor `fd`, and the clock reads `sec` afterwards. -/
def idle (fd followup_cnt sec : Int) : TickEnv :=
  { init_ok := true, init_sock := new_sock fd followup_cnt, select_result := 0
    rd_ready := fun _ => false, wr_ready := fun _ => false, elapsed_sec := sec
    io := fun _ => silent, work_us := 0 }

/-- A connection whose request was written: `send_slow` returned 100 and
nothing of the request is left to send. -/
def sent : SockIo :=
  { silent with send_ret := 100, send_eagain := false, requests_left := 0, followups_left := 3 }

/-- A connection that the peer closed: `recv_slow` returns `0`. -/
def hung_up : SockIo :=
  { silent with recv_ret := 0, recv_eagain := false }

/-- A turn in which `select` reports one descriptor ready: `rd` and `wr` say
which descriptors are readable and writable, and every call made on a
connection is answered by `io`. -/
def ready (rd wr : Int → Bool) (io : SockIo) (fd followup_cnt sec : Int) : TickEnv :=
  { init_ok := true, init_sock := new_sock fd followup_cnt, select_result := 1
    rd_ready := rd, wr_ready := wr, elapsed_sec := sec
    io := fun _ => io, work_us := 0 }

/-- The object that the constructor produces for a header attack with
follow-up data of at most 68 characters (uninitialised members zero or
empty). -/
def constructed (delay duration interval con_cnt : Int) (need_csv : Bool) : SlowHTTPTest :=
  { delay_ := delay, duration_ := duration, followup_timing_ := interval
    followup_cnt_ := Int.tdiv duration interval, num_connections_ := con_cnt
    extra_data_max_len_ := 68, seconds_passed_ := 0, type_ := .eHeader
    need_csv_ := need_csv, exit_status_ := .eUnexpectedError, sock_ := []
    initializing_ := 0, connecting_ := 0, connected_ := 0, errored_ := 0, closed_ := 0
    prefix_ := [], separator_ := [], postfix_ := some [] }

/-- The object `constructed` after a successful `init` that had no need to
change the descriptor limits. -/
def header_object (delay duration interval con_cnt : Int) (need_csv : Bool) : SlowHTTPTest :=
  init_pattern (constructed delay duration interval con_cnt need_csv)

/-- Scenario A of the specification: duration 5, follow-up interval 1, rate
50, target 20 (header attack, no CSV, descriptor limits 1024/4096). -/
def scenario_a : Option SlowHTTPTest :=
  prepare 50 5 1 20 68 .eHeader false (fun _ => 0) (fun _ => [])
    (some { rlim_cur := 1024, rlim_max := 4096 }) true true true

/-- Inputs for Scenario A with an unreachable host: twenty connects are
issued in the first second (descriptors 3 to 22) and stay pending, `select`
never reports anything, and the clock advances by one second per turn once
admission is over. -/
def scenario_a_envs : List TickEnv :=
  (List.range 19).map (fun i => idle (3 + (i : Int)) 5 0) ++
    [idle 22 5 1, idle 0 5 2, idle 0 5 3, idle 0 5 4, idle 0 5 5, idle 0 5 6, idle 0 5 7]

/-- Inputs for a run with duration 30 and two connections: the first
connection (descriptor 3) is established in the first second and closed by
the peer right away, the second (descriptor 4) stays pending; the clock
advances by one second per turn up to second 12. -/
def refused_envs : List TickEnv :=
  [idle 3 3 0, ready (fun _ => false) (fun fd => fd == 3) sent 4 3 0,
    ready (fun fd => fd == 3) (fun _ => false) hung_up 0 3 1] ++
    (List.range 11).map (fun i => idle 0 3 (2 + (i : Int)))

/-- Inputs for a run with duration 30 and one connection (descriptor 3) that
stays pending for ten seconds and is established during second 10, after
the heartbeat of that second was reported. -/
def late_envs : List TickEnv :=
  (List.range 10).map (fun i => idle 3 3 (1 + (i : Int))) ++
    [ready (fun _ => false) (fun fd => fd == 3) sent 0 3 11, idle 0 3 12]

/-- The state in which the loop of Scenario A is entered. -/
def idle_loop : Loop :=
  { self := { header_object 50 5 1 20 false with sock_ := resize [] 20 }
    num_connected := 0, tv_delay_usec := 20000, heartbeat_reported := 1, csv_reported := 1
    progress_timer_sec := 0, clock_us := 0, admitted_at := [], created := 0
    followups_tried := [], ever_connected := false }

/-- A connection on which a follow-up fragment was written: `send_slow`
returned 100 and two follow-ups are left. -/
def followed_up : SockIo :=
  { sent with followups_left := 2 }

/-- Inputs for a run with duration 30, interval 10 and one connection
(descriptor 3) that is established in the first turn and becomes writable
again in second 10, when its first follow-up is due. -/
def followup_envs : List TickEnv :=
  [ready (fun _ => false) (fun fd => fd == 3) sent 3 3 1] ++
    (List.range 9).map (fun i => idle 0 3 (2 + (i : Int))) ++
    [ready (fun _ => false) (fun fd => fd == 3) followed_up 0 3 10, idle 0 3 11]

/-- A turn in which `select` fails: it returns `-1`. -/
def failing_select : TickEnv :=
  { idle 3 5 0 with select_result := -1 }

/-- Inputs for a run with rate 1, duration 1 and three connections that stay
pending: one connection is admitted per turn, with a pause of one second
after each of the first two. -/
def slow_admission_envs : List TickEnv :=
  [idle 3 1 0, idle 4 1 1, idle 5 1 3, idle 0 1 4]

/-- The turn `e`, taking 40 microseconds of real time apart from its pause. -/
def busy (e : TickEnv) : TickEnv :=
  { e with work_us := 40 }

/-- Inputs for a run with rate 3 and four connections that stay pending, in
which every turn takes 40 microseconds apart from its pause. -/
def rate_three_envs : List TickEnv :=
  [busy (idle 3 5 0), busy (idle 4 5 0), busy (idle 5 5 0), busy (idle 6 5 1)]

/-- Timestamps of connections that were created 20 milliseconds apart from
`t0` on, were never established and are still open. -/
def pending_stamps (t0 : Int) : Nat → Timestamps :=
  fun i => { start := t0 + 20 * (i : Int), connected := 0, stop := 0 }

/-- Timestamps for the run of `refused_envs`: the first connection was
created at `t0`, established 35 milliseconds later and closed one second
after its creation; the second was created 20 milliseconds after the first,
was never established and is still open. -/
def refused_stamps (t0 : Int) : Nat → Timestamps :=
  fun i =>
    if i = 0 then { start := t0, connected := t0 + 35, stop := t0 + 1000 }
    else { start := t0 + 20, connected := 0, stop := 0 }

/-- Inputs for a run whose connection count was reduced to zero: one turn in
which nothing is admitted. -/
def empty_envs : List TickEnv :=
  [idle 0 5 0]

/-! # Properties -/

/-! ## `report_status` -/

theorem foldl_tally (l : List (Option SlowSocket)) (t : SlowHTTPTest) :
    l.foldl tally t =
      { t with
        initializing_ := t.initializing_ + state_count .eInit l
        connecting_ := t.connecting_ + state_count .eConnecting l
        connected_ := t.connected_ + state_count .eConnected l
        errored_ := t.errored_ + state_count .eError l
        closed_ := t.closed_ + state_count .eClosed l } := by
  induction l generalizing t with
  | nil => simp [state_count]
  | cons o l ih =>
    rw [List.foldl_cons, ih]
    cases o with
    | none => simp [tally, state_count]
    | some k =>
      cases hk : k.state <;>
        simp [tally, state_count, hk, List.countP_cons] <;> omega

theorem report_status_eq (t : SlowHTTPTest) (b : Bool) :
    report_status t b =
      { t with
        initializing_ := state_count .eInit t.sock_
        connecting_ := state_count .eConnecting t.sock_
        connected_ := state_count .eConnected t.sock_
        errored_ := state_count .eError t.sock_
        closed_ := state_count .eClosed t.sock_ } := by
  simp [report_status, foldl_tally]

theorem state_count_total (l : List (Option SlowSocket)) :
    state_count .eError l + state_count .eClosed l + state_count .eConnecting l +
      state_count .eConnected l + state_count .eInit l = objects l := by
  induction l with
  | nil => simp [state_count, objects]
  | cons o l ih =>
    cases o with
    | none => simpa [state_count, objects] using ih
    | some k =>
      simp only [state_count, objects] at ih ⊢
      cases hk : k.state <;> simp [List.countP_cons, hk] <;> omega

/-! ## The first loop over the sockets -/

theorem watch_one_active (t : SlowHTTPTest) (k : SlowSocket) (a : FdSets) :
    (watch_one t k a).2.active_sock_num =
      a.active_sock_num + (if k.sockfd > 0 then 1 else 0) := by
  unfold watch_one
  split_ifs <;> simp

theorem watch_loop_active (t : SlowHTTPTest) (n : Nat) (l : List (Option SlowSocket))
    (a : FdSets) :
    (watch_loop t n l a).2.active_sock_num = a.active_sock_num + open_sockets n l := by
  induction n generalizing l a with
  | zero => simp [watch_loop, open_sockets]
  | succ n ih =>
    cases l with
    | nil => simp [watch_loop, open_sockets]
    | cons o l =>
      cases o with
      | none =>
        simp only [watch_loop, ih]
        simp [open_sockets]
      | some k =>
        simp only [watch_loop, ih, watch_one_active]
        by_cases hk : k.sockfd > 0 <;> simp [open_sockets, List.countP_cons, hk]
        omega

theorem watch_active (s : Loop) :
    (watch s).2.active_sock_num = open_sockets s.num_connected s.self.sock_ := by
  simp [watch, watch_loop_active]

theorem watch_self (s : Loop) :
    (watch s).1.self =
      { s.self with seconds_passed_ := s.progress_timer_sec, sock_ := (watch s).1.self.sock_ } := by
  simp [watch]

/-- The members that `report_status` does not touch. -/
theorem report_csv_self (s : Loop) :
    ∃ i c d r x, (report_csv s).self =
      { s.self with initializing_ := i, connecting_ := c, connected_ := d, errored_ := r,
                    closed_ := x } := by
  unfold report_csv
  split_ifs
  · simp only [report_status_eq]
    exact ⟨_, _, _, _, _, rfl⟩
  · exact ⟨s.self.initializing_, s.self.connecting_, s.self.connected_, s.self.errored_,
      s.self.closed_, rfl⟩

theorem report_heartbeat_self (s : Loop) :
    ∃ i c d r x, (report_heartbeat s).self =
      { s.self with initializing_ := i, connecting_ := c, connected_ := d, errored_ := r,
                    closed_ := x } := by
  unfold report_heartbeat
  split_ifs
  · simp only [report_status_eq]
    exact ⟨_, _, _, _, _, rfl⟩
  · exact ⟨s.self.initializing_, s.self.connecting_, s.self.connected_, s.self.errored_,
      s.self.closed_, rfl⟩

theorem reports_self (s : Loop) :
    ∃ i c d r x, (reports s).self =
      { s.self with initializing_ := i, connecting_ := c, connected_ := d, errored_ := r,
                    closed_ := x } := by
  obtain ⟨i, c, d, r, x, h1⟩ := report_csv_self s
  obtain ⟨i2, c2, d2, r2, x2, h2⟩ := report_heartbeat_self (report_csv s)
  refine ⟨i2, c2, d2, r2, x2, ?_⟩
  rw [reports, h2, h1]

theorem admission_keeps (e : TickEnv) (s : Loop) :
    (admission e s).self.duration_ = s.self.duration_ ∧
      (admission e s).progress_timer_sec = s.progress_timer_sec ∧
      (admission e s).self.exit_status_ = s.self.exit_status_ := by
  unfold admission
  split_ifs <;> simp

theorem reports_watch_view (s : Loop) :
    (reports (watch s).1).self.seconds_passed_ = s.progress_timer_sec ∧
      (reports (watch s).1).self.duration_ = s.self.duration_ ∧
      (reports (watch s).1).self.exit_status_ = s.self.exit_status_ := by
  obtain ⟨i, c, d, r, x, h⟩ := reports_self (watch s).1
  rw [h, watch_self]
  simp

theorem after_select_leave (e : TickEnv) (s s1 : Loop) (fds : FdSets) (why : LoopExit)
    (h : after_select e s fds = .leave s1 why) :
    why = .selectFailed ∧ s1 = { s with progress_timer_sec := e.elapsed_sec } ∧
      e.select_result < 0 := by
  unfold after_select at h
  split_ifs at h with h1
  · simp only [Step.leave.injEq] at h
    exact ⟨h.2.symm, h.1.symm, h1⟩
  · cases hs : serve e s fds <;> simp [hs] at h

/-- A turn that starts with the clock beyond the duration leaves the loop by
the time-limit `break`. -/
theorem tick_time_limit (e : TickEnv) (s : Loop) (h : s.progress_timer_sec > s.self.duration_) :
    ∃ s1, tick e s = .leave s1 .timeLimit ∧ s1.self.exit_status_ = .eTimeLimit ∧
      s1.self.seconds_passed_ = s.progress_timer_sec := by
  obtain ⟨hsp, hdur, -⟩ := reports_watch_view (admission e s)
  obtain ⟨ad, ap, -⟩ := admission_keeps e s
  rw [ap] at hsp
  rw [ad] at hdur
  refine ⟨{ reports (watch (admission e s)).1 with
      self := { (reports (watch (admission e s)).1).self with exit_status_ := .eTimeLimit } },
    ?_, rfl, hsp⟩
  simp only [tick, evaluate, hsp, hdur, h, if_true, Option.getD_some]

/-- C1.  In one turn of the loop of `run_test`, with `seconds_passed_` the
value read at line 410 and `active_sock_num` the number of connections with
an open socket: if `seconds_passed_ > duration_` the loop is left by the
time-limit `break` with `exit_status_ = eTimeLimit`, whatever the sockets
and counters are; otherwise, if no socket is open, it is left by the next
`break` with `exit_status_ = eAllClosed`; and if neither holds the turn takes
neither of these two exits and assigns neither of these two values. -/
theorem termination_priority (e : TickEnv) (s : Loop) :
    (s.progress_timer_sec > s.self.duration_ →
      ∃ s1, tick e s = .leave s1 .timeLimit ∧ s1.self.exit_status_ = .eTimeLimit ∧
        s1.self.seconds_passed_ = s.progress_timer_sec) ∧
    (¬ s.progress_timer_sec > s.self.duration_ →
      open_sockets (admission e s).num_connected (admission e s).self.sock_ = 0 →
      ∃ s1, tick e s = .leave s1 .allClosed ∧ s1.self.exit_status_ = .eAllClosed) ∧
    (¬ s.progress_timer_sec > s.self.duration_ →
      open_sockets (admission e s).num_connected (admission e s).self.sock_ ≠ 0 →
      ∀ s1 why, tick e s = .leave s1 why →
        why ≠ .timeLimit ∧ why ≠ .allClosed ∧
          (s1.self.exit_status_ = .eHostNotAlive ∨
            s1.self.exit_status_ = .eConnectionRefused ∨
            s1.self.exit_status_ = s.self.exit_status_)) := by
  obtain ⟨hsp, hdur, hex⟩ := reports_watch_view (admission e s)
  obtain ⟨ad, ap, ae⟩ := admission_keeps e s
  have hact := watch_active (admission e s)
  rw [ap] at hsp
  rw [ad] at hdur
  rw [ae] at hex
  refine ⟨fun h => tick_time_limit e s h, fun h h0 => ?_, fun h h0 s1 why ht => ?_⟩
  · refine ⟨{ reports (watch (admission e s)).1 with
        self := { (reports (watch (admission e s)).1).self with exit_status_ := .eAllClosed } },
      ?_, rfl⟩
    simp only [tick, evaluate, hsp, hdur, h, hact, h0, if_false, if_true, Nat.cast_zero,
      Option.getD_some]
  · have hne : ((open_sockets (admission e s).num_connected (admission e s).self.sock_ : Nat) : Int) ≠ 0 := by
      exact_mod_cast h0
    simp only [tick, evaluate, hsp, hdur, h, hact, hne, if_false] at ht
    split_ifs at ht with h1 h2 h3
    · simp only [Step.leave.injEq] at ht
      obtain ⟨rfl, rfl⟩ := ht
      simp
    · simp only [Step.leave.injEq] at ht
      obtain ⟨rfl, rfl⟩ := ht
      simp
    · simp only [Step.leave.injEq] at ht
      obtain ⟨rfl, rfl⟩ := ht
      simp [hex]
    · obtain ⟨rfl, rfl, -⟩ := after_select_leave _ _ _ _ _ ht
      simp [hex]

/-! ## The outcome labels -/

/-- C10, evaluated on the code.  `report_final` prints the entry of
`exit_status_msg` for the exit status of the run; four of the five entries
are the labels of the specification, but the entry for `eHostNotAlive` is
the misspelt "Cannot esatblish connection", not "Cannot establish
connection". -/
theorem exit_status_msg_host_not_alive (t : SlowHTTPTest) :
    report_final_status { t with exit_status_ := .eTimeLimit } = "Hit test time limit" ∧
    report_final_status { t with exit_status_ := .eAllClosed } = "No open connections left" ∧
    report_final_status { t with exit_status_ := .eHostNotAlive } =
      "Cannot esatblish connection" ∧
    report_final_status { t with exit_status_ := .eHostNotAlive } ≠
      "Cannot establish connection" ∧
    report_final_status { t with exit_status_ := .eConnectionRefused } = "Connection refused" ∧
    report_final_status { t with exit_status_ := .eUnexpectedError } = "Unexpected error" := by
  refine ⟨rfl, rfl, rfl, ?_, rfl, rfl⟩
  simp only [report_final_status, exit_status_msg, ExitStatusType.toNat]
  decide

/-! ## The descriptor limits -/

/-- C7, evaluated on the code.  With a request for 10 connections and a soft
and hard limit of 3 descriptors, `change_fd_limits` sets `num_connections_`
to `3 - 5` computed in `rlim_t` and converted to `int`, that is to `-2`. -/
theorem change_fd_limits_below_overhead (t : SlowHTTPTest) (setrlimit_ok : Bool) :
    (change_fd_limits { t with num_connections_ := 10 }
      (some { rlim_cur := 3, rlim_max := 3 }) setrlimit_ok).self.num_connections_ = -2 := by
  have h15 : to_unsigned ((10 : Int) + 5) = 15 := by
    unfold to_unsigned
    decide
  have hm2 : to_int ((((3 : Nat) : Int) - 5) % 2 ^ 64) = -2 := by
    unfold to_int
    decide
  simp only [change_fd_limits, h15]
  rw [if_pos (by decide), if_neg (by decide)]
  exact hm2

/-- The rest of C7 holds on the code: for a count `n` with `0 ≤ n` and
`n + 5 < 2 ^ 31`, and limits with `5 ≤ hard` and `soft ≤ hard`, a hard limit
below `n + 5` gives a new count of `hard - 5`, which is non-negative, and in
every other case the count is unchanged. -/
theorem change_fd_limits_above_overhead (t : SlowHTTPTest) (lim : rlimit) (setrlimit_ok : Bool)
    (h0 : 0 ≤ t.num_connections_) (h31 : t.num_connections_ + 5 < 2 ^ 31)
    (h5 : 5 ≤ lim.rlim_max) (hle : lim.rlim_cur ≤ lim.rlim_max)
    (hmax : lim.rlim_max ≤ RLIM_INFINITY) :
    ((lim.rlim_max : Int) < t.num_connections_ + 5 →
      (change_fd_limits t (some lim) setrlimit_ok).self.num_connections_ = lim.rlim_max - 5 ∧
      0 ≤ (change_fd_limits t (some lim) setrlimit_ok).self.num_connections_) ∧
    (¬ (lim.rlim_max : Int) < t.num_connections_ + 5 →
      (change_fd_limits t (some lim) setrlimit_ok).self.num_connections_ =
        t.num_connections_) ∧
    (lim.rlim_cur = RLIM_INFINITY ∨ t.num_connections_ + 5 ≤ lim.rlim_cur →
      (change_fd_limits t (some lim) setrlimit_ok).self.num_connections_ =
        t.num_connections_) := by
  obtain ⟨n, hn⟩ : ∃ n : Nat, t.num_connections_ = n := ⟨t.num_connections_.toNat, by omega⟩
  have hu : to_unsigned (t.num_connections_ + 5) = n + 5 := by
    unfold to_unsigned
    rw [hn]
    omega
  have hI : RLIM_INFINITY = 2 ^ 64 - 1 := rfl
  simp only [change_fd_limits, hu]
  refine ⟨fun h => ?_, fun h => ?_, fun h => ?_⟩
  · rw [if_pos (by omega), if_neg (by omega)]
    unfold to_int
    dsimp only
    omega
  · split_ifs with a b
    · rfl
    · unfold to_int
      dsimp only
      omega
    · rfl
  · rw [if_neg (by omega)]

/-! ## The follow-up payload -/

theorem init_true (t0 t : SlowHTTPTest) (getrlimit : Option rlimit)
    (setrlimit_ok url_ok addr_ok : Bool)
    (h : init t0 getrlimit setrlimit_ok url_ok addr_ok = (true, t)) :
    t = init_pattern (change_fd_limits t0 getrlimit setrlimit_ok).self := by
  unfold init at h
  split_ifs at h <;> simp_all

theorem init_pattern_type (t : SlowHTTPTest) : (init_pattern t).type_ = t.type_ := by
  unfold init_pattern
  split_ifs <;> rfl

theorem change_fd_limits_type (t : SlowHTTPTest) (getrlimit : Option rlimit) (ok : Bool) :
    (change_fd_limits t getrlimit ok).self.type_ = t.type_ := by
  cases getrlimit with
  | none => rfl
  | some lim =>
    simp only [change_fd_limits]
    split_ifs <;> rfl

theorem init_pattern_header (t : SlowHTTPTest) (h : t.type_ = .eHeader) :
    (init_pattern t).prefix_ = header_prefix ∧ (init_pattern t).separator_ = header_separator ∧
      (init_pattern t).postfix_ = some crlf := by
  simp [init_pattern, h]

theorem init_pattern_body (t : SlowHTTPTest) (h : t.type_ ≠ .eHeader) :
    (init_pattern t).prefix_ = body_prefix ∧ (init_pattern t).separator_ = body_separator ∧
      (init_pattern t).postfix_ = none := by
  simp [init_pattern, h]

/-- C9, evaluated on the code.  With a maximum length of 1 for the follow-up
data, the constructor and `init` succeed, and every call of
`get_random_extra` computes `rand() % (extra_data_max_len_ / 2)`, which is
`rand() % 0`: the call is undefined and returns no fragment, whatever `rand`
and the text generator give.  The loop makes that call: a run with one
connection that is due for its first follow-up in second 10 goes on for ten
turns and executes the undefined call in the eleventh. -/
theorem get_random_extra_zero_divisor :
    prepare 50 30 10 1 1 .eHeader false (fun _ => 0) (fun _ => [])
        (some { rlim_cur := 1024, rlim_max := 4096 }) true true true
      = some { header_object 50 30 10 1 false with extra_data_max_len_ := 1 } ∧
    (∀ (rand1 rand2 : Int) (text1 text2 : List Char),
      get_random_extra { header_object 50 30 10 1 false with extra_data_max_len_ := 1 }
        rand1 rand2 text1 text2 = none) ∧
    (run_test { header_object 50 30 10 1 false with extra_data_max_len_ := 1 }
        (followup_envs.take 10)).state.isSome = true ∧
    (run_test { header_object 50 30 10 1 false with extra_data_max_len_ := 1 }
        followup_envs).state.isSome = false := by
  refine ⟨?_, fun _ _ _ _ => rfl, ?_, ?_⟩
  · with_unfolding_all decide
  · decide
  · decide

/-- The rest of C9 holds on the code.  After a successful `init`, a call of
`get_random_extra` is defined exactly when `extra_data_max_len_ / 2` is not
zero, and the fragment it then returns is never empty; in the header variant
it begins with "X-" and ends
with CRLF; in the body variant it begins with "&", is exactly
"&" text "=" text with nothing after the second text, and contains exactly
one "=" when the two generated texts contain none. -/
theorem get_random_extra_shape (t0 t : SlowHTTPTest) (getrlimit : Option rlimit)
    (setrlimit_ok url_ok addr_ok : Bool)
    (h : init t0 getrlimit setrlimit_ok url_ok addr_ok = (true, t))
    (rand1 rand2 : Int) (text1 text2 : List Char) :
    (get_random_extra t rand1 rand2 text1 text2 = none ↔
      Int.tdiv t.extra_data_max_len_ 2 = 0) ∧
    ∀ frag, get_random_extra t rand1 rand2 text1 text2 = some frag →
      frag ≠ [] ∧
      (t.type_ = .eHeader → header_prefix <+: frag ∧ crlf <:+ frag) ∧
      (t.type_ ≠ .eHeader →
        body_prefix <+: frag ∧
        frag = body_prefix ++ text1 ++ body_separator ++ text2 ∧
        ('=' ∉ text1 → '=' ∉ text2 → frag.count '=' = 1)) := by
  have ht := init_true _ _ _ _ _ _ h
  have hty : t.type_ = (change_fd_limits t0 getrlimit setrlimit_ok).self.type_ := by
    rw [ht, init_pattern_type]
  constructor
  · unfold get_random_extra
    split_ifs with hz
    · simp [hz]
    · cases t.postfix_ <;> simp [hz]
  · intro frag hf
    unfold get_random_extra at hf
    rw [if_neg (by intro hz; simp [hz] at hf)] at hf
    by_cases hh : (change_fd_limits t0 getrlimit setrlimit_ok).self.type_ = .eHeader
    · obtain ⟨h1, h2, h3⟩ := init_pattern_header _ hh
      rw [← ht] at h1 h2 h3
      simp only [h1, h2, h3, Option.some.injEq] at hf
      subst hf
      refine ⟨by simp [ header_prefix], fun _ => ⟨?_, ?_⟩, fun hn => absurd (hty.trans hh) hn⟩
      · simp [List.append_assoc]
      · exact List.suffix_append _ _
    · obtain ⟨h1, h2, h3⟩ := init_pattern_body _ hh
      rw [← ht] at h1 h2 h3
      simp only [h1, h2, h3, Option.some.injEq] at hf
      subst hf
      refine ⟨by simp [ body_prefix], fun hx => absurd (hty.symm.trans hx) hh,
        fun _ => ⟨?_, rfl, fun n1 n2 => ?_⟩⟩
      · simp [List.append_assoc]
      · simp [ body_prefix, body_separator, List.count_append, List.count_eq_zero_of_not_mem n1,
          List.count_eq_zero_of_not_mem n2]

/-! ## The two loops, entry by entry -/

theorem evolves_refl (R : SlowSocket → SlowSocket → Prop) (hr : ∀ k, R k k)
    (l : List (Option SlowSocket)) : List.Forall₂ (Evolves R) l l := by
  induction l with
  | nil => exact List.Forall₂.nil
  | cons o l ih =>
    refine List.Forall₂.cons ?_ ih
    cases o with
    | none => trivial
    | some k => exact hr k

theorem watch_loop_evolves (R : SlowSocket → SlowSocket → Prop) (t : SlowHTTPTest)
    (hr : ∀ k, R k k) (hw : ∀ k a, R k (watch_one t k a).1) (n : Nat)
    (l : List (Option SlowSocket)) (a : FdSets) :
    List.Forall₂ (Evolves R) l (watch_loop t n l a).1 := by
  have hrefl := evolves_refl R hr
  induction n generalizing l a with
  | zero => exact hrefl l
  | succ n ih =>
    cases l with
    | nil => exact List.Forall₂.nil
    | cons o l =>
      cases o with
      | none => exact List.Forall₂.cons trivial (ih l a)
      | some k => exact List.Forall₂.cons (hw k a) (ih l _)

theorem service_loop_evolves (R : SlowSocket → SlowSocket → Prop) (t : SlowHTTPTest)
    (readfds writefds : List Int) (io : Nat → SockIo) (hr : ∀ k, R k k)
    (hs : ∀ x k v, service_one t readfds writefds x k = some v → R k v.sock) (n i : Nat)
    (l : List (Option SlowSocket)) (r : List (Option SlowSocket) × List Attempt)
    (h : service_loop t readfds writefds io n i l = some r) :
    List.Forall₂ (Evolves R) l r.1 := by
  have hrefl := evolves_refl R hr
  induction n generalizing l i r with
  | zero =>
    simp only [service_loop, Option.some.injEq] at h
    subst h
    exact hrefl l
  | succ n ih =>
    cases l with
    | nil =>
      simp only [service_loop, Option.some.injEq] at h
      subst h
      exact List.Forall₂.nil
    | cons o l =>
      cases o with
      | none =>
        simp only [service_loop] at h
        cases hrest : service_loop t readfds writefds io n (i + 1) l with
        | none => simp [hrest] at h
        | some r1 =>
          simp only [hrest, Option.some.injEq] at h
          subst h
          exact List.Forall₂.cons trivial (ih _ l r1 hrest)
      | some k =>
        simp only [service_loop] at h
        cases hv : service_one t readfds writefds (io i) k with
        | none => simp [hv] at h
        | some v =>
          cases hrest : service_loop t readfds writefds io n (i + 1) l with
          | none => simp [hv, hrest] at h
          | some r1 =>
            simp only [hv, hrest, Option.some.injEq] at h
            subst h
            exact List.Forall₂.cons (hs _ k v hv) (ih _ l r1 hrest)

theorem evolves_mem (R : SlowSocket → SlowSocket → Prop) (l l1 : List (Option SlowSocket))
    (h : List.Forall₂ (Evolves R) l l1) (k : SlowSocket) (hk : some k ∈ l) :
    ∃ k1, some k1 ∈ l1 ∧ R k k1 := by
  induction h with
  | nil => simp at hk
  | @cons o o1 l l1 ho _ ih =>
    rcases List.mem_cons.1 hk with rfl | hk
    · cases o1 with
      | none => exact absurd ho (by simp [Evolves])
      | some k1 => exact ⟨k1, List.mem_cons_self _ _, ho⟩
    · obtain ⟨k1, h1, h2⟩ := ih hk
      exact ⟨k1, List.mem_cons_of_mem _ h1, h2⟩

theorem watch_one_state (t : SlowHTTPTest) (k : SlowSocket) (a : FdSets) :
    (watch_one t k a).1.state = k.state ∧ (watch_one t k a).1.sockfd = k.sockfd ∧
      (watch_one t k a).1.requests_to_send = k.requests_to_send ∧
      (watch_one t k a).1.followups_to_send = k.followups_to_send := by
  unfold watch_one
  split_ifs <;> simp

/-- What one servicing can do to a socket: the time of its last follow-up is
kept; its state and descriptor are kept, or it becomes `eConnected`, or it
is closed; and a follow-up send is attempted only from the branch of line
523. -/
theorem service_one_spec (t : SlowHTTPTest) (readfds writefds : List Int) (x : SockIo)
    (k : SlowSocket) (v : Serviced) (h : service_one t readfds writefds x k = some v) :
    v.sock.last_followup_timing = k.last_followup_timing ∧
    ((v.sock.state = k.state ∧ v.sock.sockfd = k.sockfd) ∨
      (v.sock.state = .eConnected ∧ v.sock.sockfd = k.sockfd) ∨
      (v.sock.state = .eClosed ∧ v.sock.sockfd = -1)) ∧
    (v.followup_tried = true →
      k.sockfd > 0 ∧ k.sockfd ∈ writefds ∧ ¬ k.requests_to_send > 0 ∧
        k.followups_to_send > 0 ∧ t.seconds_passed_ > 0 ∧
        Int.tmod t.seconds_passed_ t.followup_timing_ = 0) := by
  unfold service_one at h
  split_ifs at h with h1 h2 h3 h4 h5 h6 h7
  all_goals try split at h
  all_goals try contradiction
  all_goals
    simp only [Option.some.injEq] at h
    subst h
    simp_all [close_sock]

theorem service_one_live (t : SlowHTTPTest) (readfds writefds : List Int) (x : SockIo)
    (k : SlowSocket) (v : Serviced) (h : service_one t readfds writefds x k = some v) :
    live k → live v.sock := by
  intro hl
  obtain ⟨-, hs | hs | hs, -⟩ := service_one_spec _ _ _ _ _ _ h
  · simpa [live, hs.1] using hl
  · simp [live, hs.1]
  · simp [live, hs.1]

/-! ## Steps of a run -/

theorem reports_locals (s : Loop) :
    (reports s).num_connected = s.num_connected ∧
      (reports s).progress_timer_sec = s.progress_timer_sec ∧
      (reports s).tv_delay_usec = s.tv_delay_usec ∧ (reports s).clock_us = s.clock_us ∧
      (reports s).admitted_at = s.admitted_at ∧ (reports s).created = s.created ∧
      (reports s).followups_tried = s.followups_tried ∧
      (reports s).ever_connected = s.ever_connected := by
  unfold reports report_heartbeat report_csv
  split_ifs <;> simp

/-- A turn that goes on to the next turn: no `break` was taken, `select` did
not fail, the servicing was defined, and the next state is as line 456-568
leave it. -/
theorem tick_next (e : TickEnv) (s s1 : Loop) (h : tick e s = .next s1) :
    ∃ r, evaluate (reports (watch (admission e s)).1).self (watch (admission e s)).2.active_sock_num
        = none ∧
      serve e (reports (watch (admission e s)).1) (watch (admission e s)).2 = some r ∧
      s1 = { reports (watch (admission e s)).1 with
        self := { (reports (watch (admission e s)).1).self with sock_ := r.1 }
        progress_timer_sec := e.elapsed_sec
        followups_tried := r.2 ++ (reports (watch (admission e s)).1).followups_tried
        ever_connected := (reports (watch (admission e s)).1).ever_connected || any_connected r.1
        clock_us := (reports (watch (admission e s)).1).clock_us + e.work_us +
          pause (reports (watch (admission e s)).1) } := by
  unfold tick at h
  cases hev : evaluate (reports (watch (admission e s)).1).self
      (watch (admission e s)).2.active_sock_num with
  | some p => simp [hev] at h
  | none =>
    simp only [hev] at h
    unfold after_select at h
    split_ifs at h
    cases hs : serve e (reports (watch (admission e s)).1) (watch (admission e s)).2 with
    | none => simp [hs] at h
    | some r =>
      simp only [hs, Step.next.injEq] at h
      exact ⟨r, rfl, rfl, h.symm⟩

theorem serve_evolves (R : SlowSocket → SlowSocket → Prop) (e : TickEnv) (s : Loop)
    (fds : FdSets) (r : List (Option SlowSocket) × List Attempt) (hr : ∀ k, R k k)
    (hs : ∀ rf wf x k v, service_one s.self rf wf x k = some v → R k v.sock)
    (h : serve e s fds = some r) : List.Forall₂ (Evolves R) s.self.sock_ r.1 := by
  unfold serve at h
  split_ifs at h
  · simp only [Option.some.injEq] at h
    subst h
    exact evolves_refl R hr _
  · exact service_loop_evolves R s.self _ _ e.io hr (hs _ _) _ _ _ _ h

/-- A property kept by every turn that goes on holds at the turn that leaves
the loop. -/
theorem run_finished (I : Loop → Prop)
    (hstep : ∀ e s s1, I s → tick e s = .next s1 → I s1) (envs : List TickEnv) (s s1 : Loop)
    (why : LoopExit) (hI : I s) (h : run envs s = .finished s1 why) :
    ∃ e s0, e ∈ envs ∧ I s0 ∧ tick e s0 = .leave s1 why := by
  induction envs generalizing s with
  | nil => simp [run] at h
  | cons e es ih =>
    simp only [run] at h
    cases ht : tick e s with
    | next s2 =>
      rw [ht] at h
      obtain ⟨e1, s0, h1, h2, h3⟩ := ih s2 (hstep e s s2 hI ht) h
      exact ⟨e1, s0, List.mem_cons_of_mem _ h1, h2, h3⟩
    | leave s2 w =>
      rw [ht] at h
      simp only [Outcome.finished.injEq] at h
      obtain ⟨rfl, rfl⟩ := h
      exact ⟨e, s, List.mem_cons_self _ _, hI, ht⟩
    | trap =>
      rw [ht] at h
      simp at h

/-- A property kept by every turn that goes on holds while the loop runs. -/
theorem run_running (I : Loop → Prop)
    (hstep : ∀ e s s1, I s → tick e s = .next s1 → I s1) (envs : List TickEnv) (s s1 : Loop)
    (hI : I s) (h : run envs s = .running s1) : I s1 := by
  induction envs generalizing s with
  | nil =>
    simp only [run, Outcome.running.injEq] at h
    exact h ▸ hI
  | cons e es ih =>
    simp only [run] at h
    cases ht : tick e s with
    | next s2 =>
      rw [ht] at h
      exact ih s2 (hstep e s s2 hI ht) h
    | leave s2 w =>
      rw [ht] at h
      simp at h
    | trap =>
      rw [ht] at h
      simp at h

/-! ## The invariant `Started` -/

theorem has_live_evolves (R : SlowSocket → SlowSocket → Prop)
    (hR : ∀ k k1, R k k1 → live k → live k1) (n : Nat) (l l1 : List (Option SlowSocket))
    (h : List.Forall₂ (Evolves R) l l1) : has_live n l → has_live n l1 := by
  rintro ⟨k, hk, hl⟩
  obtain ⟨k1, h1, h2⟩ := evolves_mem R _ _ (List.forall₂_take n h) k hk
  exact ⟨k1, h1, hR k k1 h2 hl⟩

theorem take_set_self (l : List (Option SlowSocket)) (n : Nat) (x : Option SlowSocket) :
    (l.set n x).take n = l.take n := by
  rw [List.set_take, List.set_eq_of_length_le]
  simp

theorem has_live_set (l : List (Option SlowSocket)) (n : Nat) (x : Option SlowSocket)
    (h : has_live n l) : has_live n (l.set n x) ∧ has_live (n + 1) (l.set n x) := by
  obtain ⟨k, hk, hl⟩ := h
  have h1 : some k ∈ (l.set n x).take n := by rwa [take_set_self]
  exact ⟨⟨k, h1, hl⟩, ⟨k, List.take_subset_take_left _ (Nat.le_succ n) h1, hl⟩⟩

theorem has_live_first (l : List (Option SlowSocket)) (k : SlowSocket) (h0 : 0 < l.length)
    (hk : live k) : has_live 1 (l.set 0 (some k)) := by
  cases l with
  | nil => simp at h0
  | cons o l => exact ⟨k, by simp, hk⟩

theorem counted_of_has_live (t : SlowHTTPTest) (b : Bool) (n : Nat)
    (h : has_live n t.sock_) : counted (report_status t b) := by
  obtain ⟨k, hk, hl⟩ := h
  have hm : some k ∈ t.sock_ := List.take_subset _ _ hk
  have hpos : 0 < state_count k.state t.sock_ := by
    unfold state_count
    exact List.countP_pos_iff.2 ⟨some k, hm, by simp⟩
  rw [report_status_eq]
  unfold counted
  simp only
  rcases hl with h1 | h1 | h1 <;> rw [h1] at hpos <;> omega

theorem evaluate_none (t : SlowHTTPTest) (a : Int) (h : evaluate t a = none) :
    ¬ t.seconds_passed_ > t.duration_ ∧ a ≠ 0 := by
  unfold evaluate at h
  split_ifs at h with h1 h2
  exact ⟨h1, h2⟩

theorem admission_cases (e : TickEnv) (s : Loop) :
    (¬ (s.num_connected : Int) < s.self.num_connections_ ∧ admission e s = s) ∨
    ((s.num_connected : Int) < s.self.num_connections_ ∧ e.init_ok = true ∧
      admission e s =
        { s with
          self := { s.self with
            sock_ := s.self.sock_.set s.num_connected
              (some { e.init_sock with state := .eConnecting }) }
          num_connected := s.num_connected + 1
          created := s.created + 1
          admitted_at := s.clock_us :: s.admitted_at }) ∨
    ((s.num_connected : Int) < s.self.num_connections_ ∧ e.init_ok = false ∧
      admission e s =
        { s with
          self := { s.self with
            sock_ := s.self.sock_.set s.num_connected
              (some { e.init_sock with state := .eError })
            num_connections_ := s.num_connected }
          created := s.created + 1 }) := by
  unfold admission
  by_cases h1 : (s.num_connected : Int) < s.self.num_connections_
  · by_cases h2 : e.init_ok = true
    · exact Or.inr (Or.inl ⟨h1, h2, by simp [h1, h2]⟩)
    · exact Or.inr (Or.inr ⟨h1, by simpa using h2, by simp [h1, h2]⟩)
  · exact Or.inl ⟨h1, by simp [h1]⟩

theorem watch_sock_evolves (s : Loop) :
    List.Forall₂
      (Evolves fun k k1 => k1.state = k.state ∧ k1.sockfd = k.sockfd ∧
        k1.requests_to_send = k.requests_to_send ∧ k1.followups_to_send = k.followups_to_send)
      s.self.sock_ (watch s).1.self.sock_ := by
  simp only [watch]
  exact watch_loop_evolves _ _ (fun k => ⟨rfl, rfl, rfl, rfl⟩) (fun k a => watch_one_state _ k a) _ _ _

theorem watch_has_live (s : Loop) (h : has_live s.num_connected s.self.sock_) :
    has_live s.num_connected (watch s).1.self.sock_ :=
  has_live_evolves _ (fun k k1 hk hl => by
    unfold live at hl ⊢
    rw [hk.1]
    exact hl) _ _ _ (watch_sock_evolves s) h

theorem reports_counted (s : Loop) (n : Nat) (hl : has_live n s.self.sock_)
    (h : counted s.self ∨ (s.self.seconds_passed_ = 0 ∧ s.heartbeat_reported = 1)) :
    counted (reports s).self ∧ (reports s).self.sock_ = s.self.sock_ := by
  have hc : (report_csv s).self.sock_ = s.self.sock_ ∧
      (report_csv s).self.seconds_passed_ = s.self.seconds_passed_ ∧
      (report_csv s).heartbeat_reported = s.heartbeat_reported ∧
      (counted s.self → counted (report_csv s).self) := by
    unfold report_csv
    split_ifs
    · simp only [report_status_eq, true_and]
      intro _
      have := counted_of_has_live s.self true n hl
      rwa [report_status_eq] at this
    · simp
  obtain ⟨c1, c2, c3, c4⟩ := hc
  unfold reports report_heartbeat
  split_ifs with hb
  · constructor
    · exact counted_of_has_live _ false n (by rw [c1]; exact hl)
    · simp only [report_status_eq]
      exact c1
  · refine ⟨?_, c1⟩
    rcases h with h | ⟨h1, h2⟩
    · exact c4 h
    · exfalso
      apply hb
      rw [c2, c3, h1, h2]
      decide

theorem watch_locals (s : Loop) :
    (watch s).1.num_connected = s.num_connected ∧
      (watch s).1.heartbeat_reported = s.heartbeat_reported ∧
      (watch s).1.self.seconds_passed_ = s.progress_timer_sec ∧
      (watch s).1.self.exit_status_ = s.self.exit_status_ ∧
      (watch s).1.self.num_connections_ = s.self.num_connections_ ∧
      (watch s).1.self.connecting_ = s.self.connecting_ ∧
      (watch s).1.self.connected_ = s.self.connected_ ∧
      (watch s).1.self.closed_ = s.self.closed_ := by
  simp [watch]

/-- What admission does to the facts of `Started`. -/
theorem admission_started (e : TickEnv) (s : Loop) (hS : Started s) :
    (admission e s).self.exit_status_ = .eUnexpectedError ∧
    (admission e s).self.num_connections_ ≤ (admission e s).self.sock_.length ∧
    (admission e s).self.connecting_ = s.self.connecting_ ∧
    (admission e s).self.connected_ = s.self.connected_ ∧
    (admission e s).self.closed_ = s.self.closed_ ∧
    (admission e s).progress_timer_sec = s.progress_timer_sec ∧
    (admission e s).heartbeat_reported = s.heartbeat_reported ∧
    ((admission e s).num_connected = 0 ∨ has_live (admission e s).num_connected (admission e s).self.sock_) := by
  obtain ⟨hx, hlen, hd⟩ := hS
  rcases admission_cases e s with ⟨-, ha⟩ | ⟨ho, -, ha⟩ | ⟨ho, -, ha⟩
  · rw [ha]
    refine ⟨hx, hlen, rfl, rfl, rfl, rfl, rfl, ?_⟩
    rcases hd with ⟨h0, -, -⟩ | ⟨hl, -⟩
    · exact Or.inl h0
    · exact Or.inr hl
  · rw [ha]
    refine ⟨hx, ?_, rfl, rfl, rfl, rfl, rfl, Or.inr ?_⟩
    · simpa using hlen
    · rcases hd with ⟨h0, -, -⟩ | ⟨hl, -⟩
      · simp only [h0]
        refine has_live_first _ _ ?_ (Or.inl rfl)
        rw [h0] at ho
        have : (0 : Int) < s.self.sock_.length := lt_of_lt_of_le (by simpa using ho) hlen
        exact_mod_cast this
      · exact (has_live_set _ _ _ hl).2
  · rw [ha]
    refine ⟨hx, ?_, rfl, rfl, rfl, rfl, rfl, ?_⟩
    · simp only [List.length_set]
      omega
    · rcases hd with ⟨h0, -, -⟩ | ⟨hl, -⟩
      · exact Or.inl h0
      · exact Or.inr (has_live_set _ _ _ hl).1

/-- The invariant `Started` is kept by every turn that goes on. -/
theorem started_step (e : TickEnv) (s s1 : Loop) (hS : Started s)
    (ht : tick e s = .next s1) : Started s1 := by
  obtain ⟨r, hev, hserve, rfl⟩ := tick_next e s s1 ht
  obtain ⟨ax, alen, ac1, ac2, ac3, ap, ah, alive⟩ := admission_started e s hS
  obtain ⟨wn, wh, wsp, wx, wnc, wc1, wc2, wc3⟩ := watch_locals (admission e s)
  obtain ⟨i, c, d, rr, x, hrep⟩ := reports_self (watch (admission e s)).1
  obtain ⟨rn, -⟩ := reports_locals (watch (admission e s)).1
  have hact := watch_active (admission e s)
  obtain ⟨-, hne⟩ := evaluate_none _ _ hev
  -- a socket is live after admission
  have hlive : has_live (admission e s).num_connected (admission e s).self.sock_ := by
    rcases alive with h0 | hl
    · exfalso
      apply hne
      rw [hact, h0]
      simp [open_sockets]
    · exact hl
  have hlive2 := watch_has_live _ hlive
  have hcount : counted (reports (watch (admission e s)).1).self ∧
      (reports (watch (admission e s)).1).self.sock_ = (watch (admission e s)).1.self.sock_ := by
    refine reports_counted _ _ hlive2 ?_
    rcases hS.2.2 with ⟨-, h1, h2⟩ | ⟨-, hc⟩
    · right
      rw [wsp, wh, ap, ah]
      exact ⟨h1, h2⟩
    · left
      unfold counted at hc ⊢
      rw [wc1, wc2, wc3, ac1, ac2, ac3]
      exact hc
  obtain ⟨hcnt, hsock⟩ := hcount
  have hev2 := serve_evolves (fun k k1 => live k → live k1) e _ _ r (fun k h => h)
    (fun rf wf x k v h => service_one_live _ rf wf x k v h) hserve
  have hlive3 : has_live (admission e s).num_connected r.1 := by
    refine has_live_evolves _ (fun k k1 h => h) _ _ _ hev2 ?_
    rw [hsock]
    exact hlive2
  refine ⟨?_, ?_, Or.inr ⟨?_, ?_⟩⟩
  · simp only
    rw [hrep]
    simpa using wx.trans ax
  · simp only
    rw [← List.Forall₂.length_eq hev2, hsock,
      ← List.Forall₂.length_eq (watch_sock_evolves (admission e s)), hrep]
    simpa [wnc] using alen
  · simp only
    rw [rn, wn]
    exact hlive3
  · unfold counted at hcnt ⊢
    exact hcnt

/-- The ways in which `evaluate` takes a `break`. -/
theorem evaluate_some (t : SlowHTTPTest) (a : Int) (b : LoopExit) (x : Option ExitStatusType)
    (h : evaluate t a = some (b, x)) :
    (b = .timeLimit ∧ x = some .eTimeLimit ∧ t.seconds_passed_ > t.duration_) ∨
    (b = .allClosed ∧ x = some .eAllClosed ∧ ¬ t.seconds_passed_ > t.duration_ ∧ a = 0) ∨
    (b = .grace ∧ ¬ t.seconds_passed_ > t.duration_ ∧ a ≠ 0 ∧ t.seconds_passed_ > 10 ∧
      t.connected_ = 0 ∧
      ((x = some .eHostNotAlive ∧ t.connecting_ > 0 ∧ t.closed_ = 0) ∨
        (x = some .eConnectionRefused ∧ t.closed_ > 0) ∨
        (x = none ∧ ¬ (t.connecting_ > 0 ∧ t.closed_ = 0) ∧
          ¬ (t.closed_ > 0 ∧ t.connecting_ ≥ 0)))) := by
  unfold evaluate at h
  split_ifs at h with h1 h2 h3 h4 h5
  all_goals
    simp only [Option.some.injEq, Prod.mk.injEq] at h
    obtain ⟨rfl, rfl⟩ := h
    simp_all

/-- The two ways in which a turn leaves the loop: by a `break` of lines
440-455, or by the `break` after a failed `select`. -/
theorem tick_leave (e : TickEnv) (s s1 : Loop) (why : LoopExit)
    (h : tick e s = .leave s1 why) :
    (∃ x, evaluate (reports (watch (admission e s)).1).self (watch (admission e s)).2.active_sock_num
          = some (why, x) ∧
        s1 = { reports (watch (admission e s)).1 with
          self := { (reports (watch (admission e s)).1).self with
            exit_status_ := x.getD (reports (watch (admission e s)).1).self.exit_status_ } }) ∨
    (evaluate (reports (watch (admission e s)).1).self (watch (admission e s)).2.active_sock_num
        = none ∧
      why = .selectFailed ∧ e.select_result < 0 ∧
      s1 = { reports (watch (admission e s)).1 with progress_timer_sec := e.elapsed_sec }) := by
  unfold tick at h
  cases hev : evaluate (reports (watch (admission e s)).1).self
      (watch (admission e s)).2.active_sock_num with
  | some p =>
    obtain ⟨b, x⟩ := p
    simp only [hev, Step.leave.injEq] at h
    obtain ⟨rfl, rfl⟩ := h
    exact Or.inl ⟨x, rfl, rfl⟩
  | none =>
    simp only [hev] at h
    obtain ⟨h1, h2, h3⟩ := after_select_leave _ _ _ _ _ h
    exact Or.inr ⟨rfl, h1, h3, h2⟩

/-- At the termination checks of a run that started fresh, `exit_status_` is
still `eUnexpectedError`, and either no socket is open or the counters count
a socket whose `init` succeeded. -/
theorem started_view (e : TickEnv) (s : Loop) (hS : Started s) :
    (reports (watch (admission e s)).1).self.exit_status_ = .eUnexpectedError ∧
    ((watch (admission e s)).2.active_sock_num = 0 ∨ counted (reports (watch (admission e s)).1).self) := by
  obtain ⟨ax, alen, ac1, ac2, ac3, ap, ah, alive⟩ := admission_started e s hS
  obtain ⟨wn, wh, wsp, wx, wnc, wc1, wc2, wc3⟩ := watch_locals (admission e s)
  obtain ⟨i, c, d, rr, x, hrep⟩ := reports_self (watch (admission e s)).1
  have hact := watch_active (admission e s)
  constructor
  · rw [hrep]
    simpa using wx.trans ax
  · rcases alive with h0 | hl
    · left
      rw [hact, h0]
      simp [open_sockets]
    · right
      refine (reports_counted _ _ (watch_has_live _ hl) ?_).1
      rcases hS.2.2 with ⟨-, h1, h2⟩ | ⟨-, hc⟩
      · right
        rw [wsp, wh, ap, ah]
        exact ⟨h1, h2⟩
      · left
        unfold counted at hc ⊢
        rw [wc1, wc2, wc3, ac1, ac2, ac3]
        exact hc

theorem resize_length (l : List (Option SlowSocket)) (n : Nat) : (resize l n).length = n := by
  simp only [resize, List.length_append, List.length_take, List.length_replicate]
  omega

theorem start_started (t : SlowHTTPTest) (s : Loop) (hf : Fresh t)
    (h : run_test_start t = some s) : Started s := by
  unfold run_test_start at h
  split_ifs at h with h1 h2
  simp only [Option.some.injEq] at h
  subst h
  refine ⟨hf.1, ?_, Or.inl ⟨rfl, rfl, rfl⟩⟩
  simp only [resize_length]
  omega

/-! ## Runs that cannot trap, and runs that end -/

theorem service_one_defined (t : SlowHTTPTest) (readfds writefds : List Int) (x : SockIo)
    (k : SlowSocket) (h : Int.tdiv t.extra_data_max_len_ 2 ≠ 0) :
    ∃ v, service_one t readfds writefds x k = some v := by
  have hg : ∃ f, get_random_extra t x.rand1 x.rand2 x.text1 x.text2 = some f := by
    unfold get_random_extra
    rw [if_neg h]
    cases t.postfix_ <;> simp
  obtain ⟨f, hf⟩ := hg
  unfold service_one
  rw [hf]
  split_ifs <;> exact ⟨_, rfl⟩

theorem service_loop_defined (t : SlowHTTPTest) (readfds writefds : List Int)
    (io : Nat → SockIo) (h : Int.tdiv t.extra_data_max_len_ 2 ≠ 0) (n i : Nat)
    (l : List (Option SlowSocket)) :
    ∃ r, service_loop t readfds writefds io n i l = some r := by
  induction n generalizing i l with
  | zero => exact ⟨_, rfl⟩
  | succ n ih =>
    cases l with
    | nil => exact ⟨_, rfl⟩
    | cons o l =>
      obtain ⟨r, hr⟩ := ih (i + 1) l
      cases o with
      | none => exact ⟨(none :: r.1, r.2), by simp only [service_loop, hr]⟩
      | some k =>
        obtain ⟨v, hv⟩ := service_one_defined t readfds writefds (io i) k h
        exact ⟨_, by simp only [service_loop, hr, hv]; rfl⟩

/-- The configuration is the same in every turn. -/
theorem reports_watch_config (s : Loop) :
    (reports (watch s).1).self.extra_data_max_len_ = s.self.extra_data_max_len_ ∧
      (reports (watch s).1).self.followup_timing_ = s.self.followup_timing_ ∧
      (reports (watch s).1).self.num_connections_ = s.self.num_connections_ ∧
      (reports (watch s).1).tv_delay_usec = s.tv_delay_usec := by
  obtain ⟨i, c, d, r, x, h⟩ := reports_self (watch s).1
  obtain ⟨-, -, h3, -⟩ := reports_locals (watch s).1
  rw [h, watch_self, h3]
  simp [watch]

theorem admission_config (e : TickEnv) (s : Loop) :
    (admission e s).self.extra_data_max_len_ = s.self.extra_data_max_len_ ∧
      (admission e s).self.followup_timing_ = s.self.followup_timing_ ∧
      (admission e s).tv_delay_usec = s.tv_delay_usec := by
  unfold admission
  split_ifs <;> simp

theorem tick_not_trap (e : TickEnv) (s : Loop)
    (h : Int.tdiv s.self.extra_data_max_len_ 2 ≠ 0) : tick e s ≠ .trap := by
  intro ht
  unfold tick at ht
  cases hev : evaluate (reports (watch (admission e s)).1).self
      (watch (admission e s)).2.active_sock_num with
  | some p => simp [hev] at ht
  | none =>
    simp only [hev] at ht
    unfold after_select at ht
    split_ifs at ht
    have hd : ∃ r, serve e (reports (watch (admission e s)).1) (watch (admission e s)).2 = some r := by
      unfold serve
      split_ifs
      · exact ⟨_, rfl⟩
      · refine service_loop_defined _ _ _ _ ?_ _ _ _
        rw [(reports_watch_config (admission e s)).1, (admission_config e s).1]
        exact h
    obtain ⟨r, hr⟩ := hd
    simp [hr] at ht

theorem tick_next_config (e : TickEnv) (s s1 : Loop) (h : tick e s = .next s1) :
    s1.self.duration_ = s.self.duration_ ∧
      s1.self.extra_data_max_len_ = s.self.extra_data_max_len_ ∧
      s1.self.followup_timing_ = s.self.followup_timing_ ∧
      s1.tv_delay_usec = s.tv_delay_usec ∧
      s1.progress_timer_sec = e.elapsed_sec := by
  obtain ⟨r, -, -, rfl⟩ := tick_next e s s1 h
  obtain ⟨-, hd, -⟩ := reports_watch_view (admission e s)
  obtain ⟨h1, h2, -, h4⟩ := reports_watch_config (admission e s)
  obtain ⟨a1, a2, a3⟩ := admission_config e s
  refine ⟨?_, ?_, ?_, ?_, rfl⟩
  · simpa [(admission_keeps e s).1] using hd
  · simpa [a1] using h1
  · simpa [a2] using h2
  · simpa [a3] using h4

/-- A run with well-defined follow-up data stops at the latest in the turn
after the one in which the clock is read beyond the duration. -/
theorem run_ends (pre : List TickEnv) (e : TickEnv) (post : List TickEnv) (s : Loop)
    (hx : Int.tdiv s.self.extra_data_max_len_ 2 ≠ 0) (hpost : post ≠ [])
    (he : e.elapsed_sec > s.self.duration_) :
    ∃ s1 why, run (pre ++ e :: post) s = .finished s1 why := by
  induction pre generalizing s with
  | nil =>
    simp only [List.nil_append, run]
    cases ht : tick e s with
    | leave s2 w => exact ⟨s2, w, rfl⟩
    | trap => exact absurd ht (tick_not_trap e s hx)
    | next s2 =>
      obtain ⟨c1, -, -, -, c5⟩ := tick_next_config e s s2 ht
      cases post with
      | nil => exact absurd rfl hpost
      | cons e1 post =>
        obtain ⟨s3, h3, -⟩ := tick_time_limit e1 s2 (by rw [c5, c1]; exact he)
        exact ⟨s3, .timeLimit, by simp only [run, h3]⟩
  | cons p pre ih =>
    simp only [List.cons_append, run]
    cases ht : tick p s with
    | leave s2 w => exact ⟨s2, w, rfl⟩
    | trap => exact absurd ht (tick_not_trap p s hx)
    | next s2 =>
      obtain ⟨c1, c2, -, -, -⟩ := tick_next_config p s s2 ht
      exact ih s2 (by rw [c2]; exact hx) (by rw [c1]; exact he)

/-! ## How a run that started fresh leaves the loop -/

/-- The four ways out of the loop, with the value of `exit_status_` and the
facts that hold in the state the loop is left in. -/
theorem leave_from_started (e : TickEnv) (s s1 : Loop) (why : LoopExit) (hS : Started s)
    (h : tick e s = .leave s1 why) :
    s1.self.duration_ = s.self.duration_ ∧
    ((why = .timeLimit ∧ s1.self.exit_status_ = .eTimeLimit ∧
        s1.self.seconds_passed_ > s1.self.duration_) ∨
      (why = .allClosed ∧ s1.self.exit_status_ = .eAllClosed ∧
        ¬ s1.self.seconds_passed_ > s1.self.duration_) ∨
      (why = .grace ∧ s1.self.seconds_passed_ > 10 ∧
        ¬ s1.self.seconds_passed_ > s1.self.duration_ ∧ s1.self.connected_ = 0 ∧
        ((s1.self.exit_status_ = .eHostNotAlive ∧ s1.self.connecting_ > 0 ∧
            s1.self.closed_ = 0) ∨
          (s1.self.exit_status_ = .eConnectionRefused ∧ s1.self.closed_ > 0))) ∨
      (why = .selectFailed ∧ e.select_result < 0 ∧
        s1.self.exit_status_ = .eUnexpectedError)) := by
  obtain ⟨hx, hview⟩ := started_view e s hS
  obtain ⟨-, hdur, -⟩ := reports_watch_view (admission e s)
  rw [(admission_keeps e s).1] at hdur
  rcases tick_leave e s s1 why h with ⟨x, hev, rfl⟩ | ⟨-, rfl, hsel, rfl⟩
  · refine ⟨hdur, ?_⟩
    rcases evaluate_some _ _ _ _ hev with ⟨rfl, rfl, h1⟩ | ⟨rfl, rfl, h1, -⟩ |
      ⟨rfl, h1, h2, h3, h4, h5⟩
    · exact Or.inl ⟨rfl, rfl, h1⟩
    · exact Or.inr (Or.inl ⟨rfl, rfl, h1⟩)
    · refine Or.inr (Or.inr (Or.inl ⟨rfl, h3, h1, h4, ?_⟩))
      rcases h5 with ⟨rfl, h6, h7⟩ | ⟨rfl, h6⟩ | ⟨rfl, h6, h7⟩
      · exact Or.inl ⟨rfl, h6, h7⟩
      · exact Or.inr ⟨rfl, h6⟩
      · exfalso
        rcases hview with h0 | hc
        · exact h2 h0
        · unfold counted at hc
          omega
  · exact ⟨hdur, Or.inr (Or.inr (Or.inr ⟨rfl, hsel, hx⟩))⟩

/-- A run of `run_test` on a fresh object that leaves the loop does so from a
state in which `Started` holds, with the duration it was configured with. -/
theorem run_test_finished (t : SlowHTTPTest) (hf : Fresh t) (envs : List TickEnv) (s : Loop)
    (why : LoopExit) (h : run_test t envs = .finished s why) :
    ∃ e s0, e ∈ envs ∧ Started s0 ∧ s0.self.duration_ = t.duration_ ∧
      tick e s0 = .leave s why := by
  unfold run_test at h
  cases hs : run_test_start t with
  | none => simp [hs] at h
  | some s0 =>
    simp only [hs] at h
    have hd : s0.self.duration_ = t.duration_ := by
      unfold run_test_start at hs
      split_ifs at hs
      simp only [Option.some.injEq] at hs
      subst hs
      rfl
    obtain ⟨e, s1, h1, ⟨h2, h3⟩, h4⟩ :=
      run_finished (fun s => Started s ∧ s.self.duration_ = t.duration_)
        (fun e s s1 hI ht =>
          ⟨started_step e s s1 hI.1 ht, (tick_next_config e s s1 ht).1.trans hI.2⟩)
        envs s0 s why ⟨start_started t s0 hf hs, hd⟩ h
    exact ⟨e, s1, h1, h2, h3, h4⟩

/-- C3.  When `run_test`, called on a freshly constructed object, leaves its
loop, `exit_status_` is `eUnexpectedError` if and only if the loop was left
by the `break` that follows a failed `select` (which then returned a negative
number); after every other exit it is one of `eTimeLimit`, `eAllClosed`,
`eHostNotAlive`, `eConnectionRefused`. -/
theorem exit_status_unexpected_iff (t : SlowHTTPTest) (hf : Fresh t) (envs : List TickEnv)
    (s : Loop) (why : LoopExit) (h : run_test t envs = .finished s why) :
    (s.self.exit_status_ = .eUnexpectedError ↔ why = .selectFailed) ∧
    (why = .selectFailed → ∃ e ∈ envs, e.select_result < 0) ∧
    (why ≠ .selectFailed →
      s.self.exit_status_ = .eTimeLimit ∨ s.self.exit_status_ = .eAllClosed ∨
        s.self.exit_status_ = .eHostNotAlive ∨ s.self.exit_status_ = .eConnectionRefused) := by
  obtain ⟨e, s0, hmem, hS, -, ht⟩ := run_test_finished t hf envs s why h
  obtain ⟨-, hc⟩ := leave_from_started e s0 s why hS ht
  rcases hc with ⟨rfl, hx, -⟩ | ⟨rfl, hx, -⟩ | ⟨rfl, -, -, -, ⟨hx, -⟩ | ⟨hx, -⟩⟩ | ⟨rfl, hsel, hx⟩
  all_goals simp [hx]
  exact ⟨e, hmem, hsel⟩

/-- C2, as amended.  When `run_test`, called on a freshly constructed object,
leaves its loop through the grace-period check, `seconds_passed_` exceeds 10
and the counter `connected_`, as last written by `report_status`, is zero;
the outcome is `eConnectionRefused` or `eHostNotAlive`; it is
`eConnectionRefused` only if the counter `closed_` is positive, and
`eHostNotAlive` only if the counter `connecting_` is positive and `closed_`
is zero. -/
theorem grace_outcome (t : SlowHTTPTest) (hf : Fresh t) (envs : List TickEnv) (s : Loop)
    (h : run_test t envs = .finished s .grace) :
    s.self.seconds_passed_ > 10 ∧ s.self.connected_ = 0 ∧
    (s.self.exit_status_ = .eConnectionRefused ∨ s.self.exit_status_ = .eHostNotAlive) ∧
    (s.self.exit_status_ = .eConnectionRefused → s.self.closed_ > 0) ∧
    (s.self.exit_status_ = .eHostNotAlive →
      s.self.connecting_ > 0 ∧ s.self.closed_ = 0) := by
  obtain ⟨e, s0, -, hS, -, ht⟩ := run_test_finished t hf envs s .grace h
  obtain ⟨-, hc⟩ := leave_from_started e s0 s .grace hS ht
  rcases hc with ⟨hw, -⟩ | ⟨hw, -⟩ | ⟨-, h10, -, hcon, ⟨hx, h1, h2⟩ | ⟨hx, h1⟩⟩ | ⟨hw, -⟩
  · exact absurd hw (by decide)
  · exact absurd hw (by decide)
  · exact ⟨h10, hcon, Or.inr hx, by simp [hx], fun _ => ⟨h1, h2⟩⟩
  · exact ⟨h10, hcon, Or.inl hx, fun _ => h1, by simp [hx]⟩
  · exact absurd hw (by decide)

/-- The time-limit check has priority: a turn that leaves the loop with
`seconds_passed_` beyond the duration leaves it through that check. -/
theorem leave_priority (e : TickEnv) (s s1 : Loop) (why : LoopExit)
    (h : tick e s = .leave s1 why) (hp : s1.self.seconds_passed_ > s1.self.duration_) :
    why = .timeLimit := by
  rcases tick_leave e s s1 why h with ⟨x, hev, rfl⟩ | ⟨hev, -, -, rfl⟩
  · simp only at hp
    unfold evaluate at hev
    rw [if_pos hp] at hev
    simp only [Option.some.injEq, Prod.mk.injEq] at hev
    exact hev.1.symm
  · simp only at hp
    unfold evaluate at hev
    rw [if_pos hp] at hev
    simp at hev

/-! ## Concrete runs -/

theorem outcome_of_exit (o : Outcome) (why : LoopExit) (h : o.exit = some why) :
    ∃ s, o = .finished s why := by
  cases o with
  | finished s w =>
    simp only [Outcome.exit, Option.some.injEq] at h
    exact ⟨s, by rw [h]⟩
  | trapped => simp [Outcome.exit] at h
  | running s => simp [Outcome.exit] at h

theorem header_object_fresh (delay duration interval con_cnt : Int) (need_csv : Bool) :
    Fresh (header_object delay duration interval con_cnt need_csv) := by
  simp [Fresh, header_object, constructed, init_pattern]

theorem scenario_a_eq : scenario_a = some (header_object 50 5 1 20 false) := by
  with_unfolding_all decide

/-- C3, at a concrete input: a run whose first `select` fails leaves the loop
with `exit_status_ = eUnexpectedError`. -/
theorem exit_status_unexpected_iff_witness :
    Fresh (header_object 50 5 1 20 false) ∧
    ∃ s, run_test (header_object 50 5 1 20 false) [failing_select] = .finished s .selectFailed ∧
      s.self.exit_status_ = .eUnexpectedError ∧
      ∃ e ∈ [failing_select], e.select_result < 0 := by
  obtain ⟨s, hs⟩ := outcome_of_exit
    (run_test (header_object 50 5 1 20 false) [failing_select]) .selectFailed (by decide)
  have h := exit_status_unexpected_iff _ (header_object_fresh _ _ _ _ _) _ s _ hs
  exact ⟨header_object_fresh _ _ _ _ _, s, hs, h.1.2 rfl, h.2.1 rfl⟩

/-- C2 fails as stated.  With duration 30 and two connections, of which the
first is established and then closed by the peer and the second stays
pending, the run ends at second 11 through the grace-period check with
`eConnectionRefused` although a connection was in state `eConnected`.  With
one connection that is established during second 10, the run ends at second
11 with `eHostNotAlive` although that connection is in state `eConnected` at
that moment: the counters are those of the last report. -/
theorem grace_outcome_counterexample :
    (prepare 50 30 10 2 68 .eHeader false (fun _ => 0) (fun _ => [])
        (some { rlim_cur := 1024, rlim_max := 4096 }) true true true
      = some (header_object 50 30 10 2 false) ∧
    (run_test (header_object 50 30 10 2 false) refused_envs).exit = some .grace ∧
    (run_test (header_object 50 30 10 2 false) refused_envs).state.map
      (fun s => (s.self.exit_status_, s.self.seconds_passed_, s.ever_connected))
      = some (.eConnectionRefused, 11, true)) ∧
    (prepare 50 30 10 1 68 .eHeader false (fun _ => 0) (fun _ => [])
        (some { rlim_cur := 1024, rlim_max := 4096 }) true true true
      = some (header_object 50 30 10 1 false) ∧
    (run_test (header_object 50 30 10 1 false) late_envs).exit = some .grace ∧
    (run_test (header_object 50 30 10 1 false) late_envs).state.map
      (fun s => (s.self.exit_status_, s.self.seconds_passed_, s.ever_connected,
        any_connected s.self.sock_))
      = some (.eHostNotAlive, 11, true, true)) := by
  refine ⟨⟨?_, ?_, ?_⟩, ?_, ?_, ?_⟩
  · with_unfolding_all decide
  · decide
  · decide
  · with_unfolding_all decide
  · decide
  · decide

/-- C2 as amended, at a concrete input: the run of `refused_envs` ends
through the grace-period check. -/
theorem grace_outcome_witness :
    Fresh (header_object 50 30 10 2 false) ∧
    ∃ s, run_test (header_object 50 30 10 2 false) refused_envs = .finished s .grace ∧
      (s.self.seconds_passed_ > 10 ∧ s.self.connected_ = 0 ∧
      (s.self.exit_status_ = .eConnectionRefused ∨ s.self.exit_status_ = .eHostNotAlive) ∧
      (s.self.exit_status_ = .eConnectionRefused → s.self.closed_ > 0) ∧
      (s.self.exit_status_ = .eHostNotAlive →
        s.self.connecting_ > 0 ∧ s.self.closed_ = 0)) := by
  obtain ⟨s, hs⟩ := outcome_of_exit
    (run_test (header_object 50 30 10 2 false) refused_envs) .grace (by decide)
  exact ⟨header_object_fresh _ _ _ _ _, s, hs,
    grace_outcome _ (header_object_fresh _ _ _ _ _) _ s hs⟩

/-- C4 fails as stated.  In Scenario A with twenty connects that stay
pending and are never established, the run ends when `seconds_passed_` is 6,
by the time-limit check, with `eTimeLimit`. -/
theorem scenario_a_counterexample :
    scenario_a = some (header_object 50 5 1 20 false) ∧
    (run_test (header_object 50 5 1 20 false) scenario_a_envs).exit = some .timeLimit ∧
    (run_test (header_object 50 5 1 20 false) scenario_a_envs).state.map
      (fun s => (s.self.exit_status_, s.self.seconds_passed_, s.ever_connected))
      = some (.eTimeLimit, 6, false) := by
  refine ⟨?_, ?_, ?_⟩
  · with_unfolding_all decide
  · decide
  · decide

/-- C4, as amended.  In Scenario A (duration 5, interval 1, rate 50, target
20), whatever the connections do, `run_test` never leaves its loop through
the grace-period check and never with `eHostNotAlive` or
`eConnectionRefused`: the time-limit check comes first and ends the run with
`eTimeLimit` once `seconds_passed_` exceeds 5 (no other exit is taken with
`seconds_passed_` beyond 5), a run without open socket ends with
`eAllClosed`, and a run whose `select` fails ends with `eUnexpectedError`.
The run does end: it has stopped at the latest in
the turn after the one in which the clock is read beyond second 5. -/
theorem scenario_a_outcome (t : SlowHTTPTest) (ht : scenario_a = some t)
    (envs : List TickEnv) :
    (∀ s why, run_test t envs = .finished s why →
      why ≠ .grace ∧ s.self.exit_status_ ≠ .eHostNotAlive ∧
      s.self.exit_status_ ≠ .eConnectionRefused ∧
      (why = .timeLimit → s.self.exit_status_ = .eTimeLimit ∧ s.self.seconds_passed_ > 5) ∧
      (why = .allClosed → s.self.exit_status_ = .eAllClosed) ∧
      (why = .selectFailed → s.self.exit_status_ = .eUnexpectedError) ∧
      (s.self.seconds_passed_ > 5 → why = .timeLimit)) ∧
    (∀ pre e post, envs = pre ++ e :: post → post ≠ [] → e.elapsed_sec > 5 →
      ∃ s why, run_test t envs = .finished s why) := by
  rw [scenario_a_eq, Option.some.injEq] at ht
  subst ht
  constructor
  · intro s why h
    obtain ⟨e, s0, -, hS, hd, ht⟩ :=
      run_test_finished _ (header_object_fresh _ _ _ _ _) envs s why h
    have hd5 : s0.self.duration_ = 5 := hd
    obtain ⟨hdur, hc⟩ := leave_from_started e s0 s why hS ht
    rw [hd5] at hdur
    have hprio : s.self.seconds_passed_ > 5 → why = .timeLimit := fun hp =>
      leave_priority e s0 s why ht (by rw [hdur]; exact hp)
    refine ⟨?_, ?_, ?_, ?_, ?_, ?_, hprio⟩
    all_goals rcases hc with ⟨rfl, hx, h1⟩ | ⟨rfl, hx, -⟩ | ⟨rfl, h10, h1, -⟩ | ⟨rfl, -, hx⟩
    all_goals first
      | (rw [hdur] at h1; omega)
      | (rw [hdur] at h1; simp [hx, h1])
      | simp [hx]
  · intro pre e post henv hpost he
    subst henv
    have hstart : ∃ s0, run_test_start (header_object 50 5 1 20 false) = some s0 ∧
        s0.self.duration_ = 5 ∧ s0.self.extra_data_max_len_ = 68 :=
      ⟨_, rfl, rfl, rfl⟩
    obtain ⟨s0, h0, h1, h2⟩ := hstart
    simp only [run_test, h0]
    exact run_ends pre e post s0 (by rw [h2]; decide) hpost (by rw [h1]; exact he)

/-- C4 as amended, at a concrete input: the run of `scenario_a_envs`. -/
theorem scenario_a_outcome_witness :
    scenario_a = some (header_object 50 5 1 20 false) ∧
    ∃ s, run_test (header_object 50 5 1 20 false) scenario_a_envs = .finished s .timeLimit ∧
      s.self.exit_status_ = .eTimeLimit ∧ s.self.seconds_passed_ > 5 := by
  obtain ⟨s, hs⟩ := outcome_of_exit
    (run_test (header_object 50 5 1 20 false) scenario_a_envs) .timeLimit (by decide)
  exact ⟨scenario_a_eq, s, hs,
    ((scenario_a_outcome _ scenario_a_eq scenario_a_envs).1 s _ hs).2.2.2.1 rfl⟩

/-- The shape of a fragment at a concrete input: the header fragment built
from the texts "a" and "b", with a maximum length of 68. -/
theorem get_random_extra_shape_witness :
    init (constructed 50 5 1 20 false) (some { rlim_cur := 1024, rlim_max := 4096 })
        true true true = (true, header_object 50 5 1 20 false) ∧
    get_random_extra (header_object 50 5 1 20 false) 3 4 ['a'] ['b'] =
      some ['X', '-', 'a', ':', ' ', 'b', Char.ofNat 13, Char.ofNat 10] ∧
    ∀ frag, get_random_extra (header_object 50 5 1 20 false) 3 4 ['a'] ['b'] = some frag →
      frag ≠ [] ∧
      ((header_object 50 5 1 20 false).type_ = .eHeader →
        header_prefix <+: frag ∧ crlf <:+ frag) ∧
      ((header_object 50 5 1 20 false).type_ ≠ .eHeader →
        body_prefix <+: frag ∧
        frag = body_prefix ++ ['a'] ++ body_separator ++ ['b'] ∧
        ('=' ∉ ['a'] → '=' ∉ ['b'] → frag.count '=' = 1)) := by
  have h : init (constructed 50 5 1 20 false) (some { rlim_cur := 1024, rlim_max := 4096 })
      true true true = (true, header_object 50 5 1 20 false) := by
    with_unfolding_all decide
  exact ⟨h, by decide, (get_random_extra_shape _ _ _ _ _ _ h 3 4 ['a'] ['b']).2⟩

/-- C1, at a concrete input: a turn of Scenario A that starts with the clock
at second 6 ends by the time-limit check although a socket is open. -/
theorem termination_priority_witness :
    ∃ s1, tick (idle 3 5 0) { (idle_loop) with progress_timer_sec := 6 } = .leave s1 .timeLimit ∧
      s1.self.exit_status_ = .eTimeLimit ∧ s1.self.seconds_passed_ = 6 :=
  (termination_priority (idle 3 5 0) { (idle_loop) with progress_timer_sec := 6 }).1 (by decide)

/-! ## The counters and the objects created -/

theorem evolves_objects (R : SlowSocket → SlowSocket → Prop) (l l1 : List (Option SlowSocket))
    (h : List.Forall₂ (Evolves R) l l1) : objects l1 = objects l := by
  induction h with
  | nil => rfl
  | @cons o o1 l l1 ho _ ih =>
    unfold objects at ih ⊢
    cases o <;> cases o1 <;> simp_all [Evolves, List.countP_cons]

theorem evolves_all_none (R : SlowSocket → SlowSocket → Prop) (l l1 : List (Option SlowSocket))
    (h : List.Forall₂ (Evolves R) l l1) (hn : ∀ o ∈ l, o = none) : ∀ o ∈ l1, o = none := by
  induction h with
  | nil => simp
  | @cons o o1 l l1 ho _ ih =>
    intro x hx
    have h0 : o = none := hn o (List.mem_cons_self _ _)
    subst h0
    rcases List.mem_cons.1 hx with rfl | hx
    · cases x with
      | none => rfl
      | some k => exact absurd ho (by simp [Evolves])
    · exact ih (fun y hy => hn y (List.mem_cons_of_mem _ hy)) x hx

theorem objects_set (l : List (Option SlowSocket)) (n : Nat) (k : SlowSocket)
    (hn : n < l.length) (h : ∀ o ∈ l.drop n, o = none) :
    objects (l.set n (some k)) = objects l + 1 := by
  have hd : l[n] = none := by
    apply h
    rw [List.drop_eq_getElem_cons hn]
    exact List.mem_cons_self _ _
  unfold objects
  rw [List.countP_set _ _ _ _ hn, hd]
  simp

theorem drop_succ_set (l : List (Option SlowSocket)) (n : Nat) (x : Option SlowSocket)
    (h : ∀ o ∈ l.drop n, o = none) : ∀ o ∈ (l.set n x).drop (n + 1), o = none := by
  intro o ho
  rw [List.drop_set_of_lt _ _ (Nat.lt_succ_self n)] at ho
  apply h
  rw [← List.drop_drop 1 n] at ho
  exact List.mem_of_mem_drop ho

/-- What admission does to the facts of `Filled`. -/
theorem admission_filled (e : TickEnv) (s : Loop) (hF : Filled s) : Filled (admission e s) := by
  obtain ⟨hlen, hnone, hobj⟩ := hF
  rcases admission_cases e s with ⟨-, ha⟩ | ⟨ho, -, ha⟩ | ⟨ho, -, ha⟩
  · rw [ha]
    exact ⟨hlen, hnone, hobj⟩
  · have hn : s.num_connected < s.self.sock_.length := by
      have : (s.num_connected : Int) < s.self.sock_.length := lt_of_lt_of_le ho hlen
      exact_mod_cast this
    rw [ha]
    refine ⟨?_, fun _ => ?_, ?_⟩
    · simpa using hlen
    · exact drop_succ_set _ _ _ (hnone ho)
    · simp only
      rw [objects_set _ _ _ hn (hnone ho), hobj]
  · have hn : s.num_connected < s.self.sock_.length := by
      have : (s.num_connected : Int) < s.self.sock_.length := lt_of_lt_of_le ho hlen
      exact_mod_cast this
    rw [ha]
    refine ⟨?_, fun h => absurd h (lt_irrefl _), ?_⟩
    · simp only [List.length_set]
      omega
    · simp only
      rw [objects_set _ _ _ hn (hnone ho), hobj]

theorem watch_filled (s : Loop) (hF : Filled s) : Filled (watch s).1 := by
  obtain ⟨hlen, hnone, hobj⟩ := hF
  have hev := watch_sock_evolves s
  obtain ⟨wn, -, -, -, wnc, -⟩ := watch_locals s
  refine ⟨?_, ?_, ?_⟩
  · rw [← List.Forall₂.length_eq hev, wnc]
    exact hlen
  · rw [wn, wnc]
    intro h
    exact evolves_all_none _ _ _ (List.forall₂_drop _ hev) (hnone h)
  · rw [evolves_objects _ _ _ hev, hobj]
    simp [watch]

theorem filled_step (e : TickEnv) (s s1 : Loop) (hF : Filled s) (ht : tick e s = .next s1) :
    Filled s1 := by
  obtain ⟨r, -, hserve, rfl⟩ := tick_next e s s1 ht
  obtain ⟨hlen, hnone, hobj⟩ := watch_filled _ (admission_filled e s hF)
  obtain ⟨i, c, d, rr, x, hrep⟩ := reports_self (watch (admission e s)).1
  obtain ⟨rn, -, -, -, -, rc, -⟩ := reports_locals (watch (admission e s)).1
  have hsock : (reports (watch (admission e s)).1).self.sock_ =
      (watch (admission e s)).1.self.sock_ := by
    rw [hrep]
  have hnc : (reports (watch (admission e s)).1).self.num_connections_ =
      (watch (admission e s)).1.self.num_connections_ := by
    rw [hrep]
  have hev := serve_evolves (fun _ _ => True) e _ _ r (fun _ => trivial)
    (fun _ _ _ _ _ _ => trivial) hserve
  rw [hsock] at hev
  refine ⟨?_, ?_, ?_⟩
  · simp only
    rw [← List.Forall₂.length_eq hev, hnc]
    exact hlen
  · simp only
    rw [rn, hnc]
    intro h
    exact evolves_all_none _ _ _ (List.forall₂_drop _ hev) (hnone h)
  · simp only
    rw [evolves_objects _ _ _ hev, hobj, rc]

theorem start_filled (t : SlowHTTPTest) (s : Loop) (hf : Fresh t)
    (h : run_test_start t = some s) : Filled s := by
  unfold run_test_start at h
  split_ifs at h with h1 h2
  simp only [Option.some.injEq] at h
  subst h
  refine ⟨?_, fun _ => ?_, ?_⟩
  · simp only [resize_length]
    omega
  · simp only [hf.2, resize]
    intro o ho
    have := List.mem_of_mem_drop ho
    simp only [List.take_nil, List.nil_append, List.mem_replicate] at this
    exact this.2
  · simp [hf.2, resize, objects]

theorem report_status_sum (t : SlowHTTPTest) (b : Bool) :
    counters_sum (report_status t b) = objects t.sock_ ∧
      (report_status t b).sock_ = t.sock_ := by
  rw [report_status_eq]
  refine ⟨?_, rfl⟩
  unfold counters_sum
  simp only
  exact_mod_cast state_count_total t.sock_

/-- A run of `run_test` on a fresh object that is still in its loop is in a
state in which `Filled` holds. -/
theorem run_test_running (t : SlowHTTPTest) (hf : Fresh t) (envs : List TickEnv) (s : Loop)
    (h : run_test t envs = .running s) : Filled s := by
  unfold run_test at h
  cases hs : run_test_start t with
  | none => simp [hs] at h
  | some s0 =>
    simp only [hs] at h
    exact run_running Filled filled_step envs s0 s (start_filled t s0 hf hs) h

/-- In every turn of a run of `run_test` on a fresh object: if
`report_status` is called in the turn, then after the reports the five
counters sum to the number of `SlowSocket` objects created so far; if it is
not called, their sum is what it was. -/
theorem counters_sum_reported (t : SlowHTTPTest) (hf : Fresh t) (envs : List TickEnv)
    (s : Loop) (h : run_test t envs = .running s) (e : TickEnv) :
    (((watch (admission e s)).1.self.need_csv_ = true ∧
          (watch (admission e s)).1.csv_reported ≠ (watch (admission e s)).1.self.seconds_passed_) ∨
        (Int.tmod (watch (admission e s)).1.self.seconds_passed_ 5 = 0 ∧
          (watch (admission e s)).1.heartbeat_reported ≠
            (watch (admission e s)).1.self.seconds_passed_) →
      counters_sum (reports (watch (admission e s)).1).self = (admission e s).created) ∧
    (¬ ((watch (admission e s)).1.self.need_csv_ = true ∧
          (watch (admission e s)).1.csv_reported ≠ (watch (admission e s)).1.self.seconds_passed_) →
      ¬ (Int.tmod (watch (admission e s)).1.self.seconds_passed_ 5 = 0 ∧
          (watch (admission e s)).1.heartbeat_reported ≠
            (watch (admission e s)).1.self.seconds_passed_) →
      counters_sum (reports (watch (admission e s)).1).self = counters_sum s.self) := by
  obtain ⟨-, -, hobj⟩ := watch_filled _ (admission_filled e s (run_test_running t hf envs s h))
  have hcr : (watch (admission e s)).1.created = (admission e s).created := by simp [watch]
  rw [hcr] at hobj
  have hsum : counters_sum (watch (admission e s)).1.self = counters_sum s.self := by
    obtain ⟨-, -, -, -, -, w1, w2, w3⟩ := watch_locals (admission e s)
    have w4 : (watch (admission e s)).1.self.errored_ = (admission e s).self.errored_ ∧
        (watch (admission e s)).1.self.initializing_ = (admission e s).self.initializing_ := by
      simp [watch]
    have a1 : (admission e s).self.errored_ = s.self.errored_ ∧
        (admission e s).self.initializing_ = s.self.initializing_ ∧
        (admission e s).self.connecting_ = s.self.connecting_ ∧
        (admission e s).self.connected_ = s.self.connected_ ∧
        (admission e s).self.closed_ = s.self.closed_ := by
      unfold admission
      split_ifs <;> simp
    unfold counters_sum
    rw [w1, w2, w3, w4.1, w4.2, a1.1, a1.2.1, a1.2.2.1, a1.2.2.2.1, a1.2.2.2.2]
  generalize (watch (admission e s)).1 = s2 at hobj hsum ⊢
  unfold reports report_heartbeat report_csv
  constructor
  · intro hc
    by_cases h1 : s2.self.need_csv_ = true ∧ s2.csv_reported ≠ s2.self.seconds_passed_
    · rw [if_pos h1]
      split_ifs
      · simp only
        rw [(report_status_sum _ _).1, (report_status_sum _ _).2, hobj]
      · simp only
        rw [(report_status_sum _ _).1, hobj]
    · rw [if_neg h1]
      rw [if_pos (hc.resolve_left h1)]
      simp only
      rw [(report_status_sum _ _).1, hobj]
  · intro h1 h2
    rw [if_neg h1, if_neg h2]
    exact hsum

/-- In a turn in which `report_status` is not called each of the five
counters keeps its value, and a turn that leaves the loop leaves the
counters as they are after the reports. -/
theorem counters_kept (e : TickEnv) (s : Loop) :
    (¬ ((watch (admission e s)).1.self.need_csv_ = true ∧
          (watch (admission e s)).1.csv_reported ≠ (watch (admission e s)).1.self.seconds_passed_) →
      ¬ (Int.tmod (watch (admission e s)).1.self.seconds_passed_ 5 = 0 ∧
          (watch (admission e s)).1.heartbeat_reported ≠
            (watch (admission e s)).1.self.seconds_passed_) →
      (reports (watch (admission e s)).1).self.errored_ = s.self.errored_ ∧
      (reports (watch (admission e s)).1).self.closed_ = s.self.closed_ ∧
      (reports (watch (admission e s)).1).self.connecting_ = s.self.connecting_ ∧
      (reports (watch (admission e s)).1).self.connected_ = s.self.connected_ ∧
      (reports (watch (admission e s)).1).self.initializing_ = s.self.initializing_) ∧
    (∀ s1 why, tick e s = .leave s1 why →
      s1.self.errored_ = (reports (watch (admission e s)).1).self.errored_ ∧
      s1.self.closed_ = (reports (watch (admission e s)).1).self.closed_ ∧
      s1.self.connecting_ = (reports (watch (admission e s)).1).self.connecting_ ∧
      s1.self.connected_ = (reports (watch (admission e s)).1).self.connected_ ∧
      s1.self.initializing_ = (reports (watch (admission e s)).1).self.initializing_) := by
  constructor
  · intro h1 h2
    obtain ⟨-, -, -, -, -, w1, w2, w3⟩ := watch_locals (admission e s)
    have w4 : (watch (admission e s)).1.self.errored_ = (admission e s).self.errored_ ∧
        (watch (admission e s)).1.self.initializing_ = (admission e s).self.initializing_ := by
      simp [watch]
    have a1 : (admission e s).self.errored_ = s.self.errored_ ∧
        (admission e s).self.initializing_ = s.self.initializing_ ∧
        (admission e s).self.connecting_ = s.self.connecting_ ∧
        (admission e s).self.connected_ = s.self.connected_ ∧
        (admission e s).self.closed_ = s.self.closed_ := by
      unfold admission
      split_ifs <;> simp
    have hr : reports (watch (admission e s)).1 = (watch (admission e s)).1 := by
      unfold reports report_heartbeat report_csv
      rw [if_neg h1, if_neg h2]
    rw [hr, w1, w2, w3, w4.1, w4.2]
    exact ⟨a1.1, a1.2.2.2.2, a1.2.2.1, a1.2.2.2.1, a1.2.1⟩
  · intro s1 why h
    rcases tick_leave e s s1 why h with ⟨x, -, rfl⟩ | ⟨-, -, -, rfl⟩
    · exact ⟨rfl, rfl, rfl, rfl, rfl⟩
    · exact ⟨rfl, rfl, rfl, rfl, rfl⟩

/-- C5, as amended.  In every turn of a run of `run_test` on a fresh object:
if `report_status` is called in the turn (for the CSV file, because
`seconds_passed_` changed, or for the heartbeat, because it is a new multiple
of 5), then after the reports the five counters sum to the number of
`SlowSocket` objects created so far, the one created in this turn included;
if it is not called, the counters keep the values they had, each of them and
so their sum; and when the turn leaves the loop, the run ends with the
counters as they are after the reports. -/
theorem counters_sum_at_report (t : SlowHTTPTest) (hf : Fresh t) (envs : List TickEnv)
    (s : Loop) (h : run_test t envs = .running s) (e : TickEnv) :
    (((watch (admission e s)).1.self.need_csv_ = true ∧
          (watch (admission e s)).1.csv_reported ≠ (watch (admission e s)).1.self.seconds_passed_) ∨
        (Int.tmod (watch (admission e s)).1.self.seconds_passed_ 5 = 0 ∧
          (watch (admission e s)).1.heartbeat_reported ≠
            (watch (admission e s)).1.self.seconds_passed_) →
      counters_sum (reports (watch (admission e s)).1).self = (admission e s).created) ∧
    (¬ ((watch (admission e s)).1.self.need_csv_ = true ∧
          (watch (admission e s)).1.csv_reported ≠ (watch (admission e s)).1.self.seconds_passed_) →
      ¬ (Int.tmod (watch (admission e s)).1.self.seconds_passed_ 5 = 0 ∧
          (watch (admission e s)).1.heartbeat_reported ≠
            (watch (admission e s)).1.self.seconds_passed_) →
      counters_sum (reports (watch (admission e s)).1).self = counters_sum s.self) ∧
    (¬ ((watch (admission e s)).1.self.need_csv_ = true ∧
          (watch (admission e s)).1.csv_reported ≠ (watch (admission e s)).1.self.seconds_passed_) →
      ¬ (Int.tmod (watch (admission e s)).1.self.seconds_passed_ 5 = 0 ∧
          (watch (admission e s)).1.heartbeat_reported ≠
            (watch (admission e s)).1.self.seconds_passed_) →
      (reports (watch (admission e s)).1).self.errored_ = s.self.errored_ ∧
      (reports (watch (admission e s)).1).self.closed_ = s.self.closed_ ∧
      (reports (watch (admission e s)).1).self.connecting_ = s.self.connecting_ ∧
      (reports (watch (admission e s)).1).self.connected_ = s.self.connected_ ∧
      (reports (watch (admission e s)).1).self.initializing_ = s.self.initializing_) ∧
    (∀ s1 why, tick e s = .leave s1 why →
      s1.self.errored_ = (reports (watch (admission e s)).1).self.errored_ ∧
      s1.self.closed_ = (reports (watch (admission e s)).1).self.closed_ ∧
      s1.self.connecting_ = (reports (watch (admission e s)).1).self.connecting_ ∧
      s1.self.connected_ = (reports (watch (admission e s)).1).self.connected_ ∧
      s1.self.initializing_ = (reports (watch (admission e s)).1).self.initializing_) := by
  obtain ⟨h1, h2⟩ := counters_sum_reported t hf envs s h e
  obtain ⟨h3, h4⟩ := counters_kept e s
  exact ⟨h1, h2, h3, h4⟩

/-- C5 fails as stated.  With rate 1, duration 1 and three connections that
stay pending, the run ends at second 3 by the time limit; three `SlowSocket`
objects were created, but the counters, last written in the first turn, sum
to 1. -/
theorem counters_sum_counterexample :
    prepare 1 1 1 3 68 .eHeader false (fun _ => 0) (fun _ => [])
        (some { rlim_cur := 1024, rlim_max := 4096 }) true true true
      = some (header_object 1 1 1 3 false) ∧
    (run_test (header_object 1 1 1 3 false) slow_admission_envs).exit = some .timeLimit ∧
    (run_test (header_object 1 1 1 3 false) slow_admission_envs).state.map
      (fun s => (counters_sum s.self, s.created, objects s.self.sock_)) = some (1, 3, 3) := by
  refine ⟨?_, ?_, ?_⟩
  · with_unfolding_all decide
  · decide
  · decide

/-! ## The pacing of admissions -/

/-- In a log whose entries are at least `d` apart and all at least `d` below
`U`, the entries from `T` on are none, or so few that `c * d + T ≤ U`. -/
theorem count_from (d T : Nat) (log : List Nat)
    (hp : log.Pairwise (fun later earlier => earlier + d ≤ later)) (U : Nat)
    (hU : ∀ y ∈ log, y + d ≤ U) :
    log.countP (fun x => decide (T ≤ x)) = 0 ∨
      log.countP (fun x => decide (T ≤ x)) * d + T ≤ U := by
  induction log generalizing U with
  | nil => exact Or.inl rfl
  | cons x log ih =>
    obtain ⟨hx, hp1⟩ := List.pairwise_cons.1 hp
    have hxU : x + d ≤ U := hU x (List.mem_cons_self _ _)
    have ih1 := ih hp1 x hx
    by_cases hT : T ≤ x
    · right
      rw [List.countP_cons_of_pos _ _ (by simpa using hT)]
      rcases ih1 with h0 | h1
      · rw [h0]
        omega
      · rw [Nat.add_mul]
        omega
    · rw [List.countP_cons_of_neg _ _ (by simpa using hT)]
      rcases ih1 with h0 | h1
      · exact Or.inl h0
      · exfalso
        omega

/-- In a log whose entries are at least `d` apart, the number `c` of entries
in a window of one second satisfies `c * d < 1000000 + d`. -/
theorem window_count (d : Nat) (log : List Nat)
    (hp : log.Pairwise (fun later earlier => earlier + d ≤ later)) (from_us : Nat) :
    admitted_within from_us log * d < 1000000 + d := by
  have hf : admitted_within from_us log =
      (log.filter (fun x => decide (x < from_us + 1000000))).countP
        (fun x => decide (from_us ≤ x)) := by
    unfold admitted_within
    rw [List.countP_filter]
    congr 1
    funext x
    by_cases h1 : from_us ≤ x <;> by_cases h2 : x < from_us + 1000000 <;> simp [h1, h2]
  rw [hf]
  have hp1 := hp.sublist (List.filter_sublist (p := fun x => decide (x < from_us + 1000000)) log)
  rcases count_from d from_us _ hp1 (from_us + 999999 + d) (by
    intro y hy
    have := (List.mem_filter.1 hy).2
    simp only [decide_eq_true_eq] at this
    omega) with h0 | h1
  · rw [h0]
    omega
  · omega

/-- What admission does to the facts of `Paced`. -/
theorem admission_paced (e : TickEnv) (s : Loop) (hP : Paced s) :
    (admission e s).admitted_at.Pairwise
        (fun later earlier => earlier + s.tv_delay_usec.toNat ≤ later) ∧
      (((admission e s).num_connected : Int) < (admission e s).self.num_connections_ →
        ∀ y ∈ (admission e s).admitted_at, y ≤ s.clock_us) ∧
      (admission e s).tv_delay_usec = s.tv_delay_usec ∧
      (admission e s).clock_us = s.clock_us := by
  obtain ⟨hp, hc⟩ := hP
  rcases admission_cases e s with ⟨hno, ha⟩ | ⟨ho, -, ha⟩ | ⟨ho, -, ha⟩
  · rw [ha]
    refine ⟨hp, fun h y hy => ?_, rfl, rfl⟩
    have := hc h y hy
    omega
  · rw [ha]
    refine ⟨List.pairwise_cons.2 ⟨hc ho, hp⟩, fun _ y hy => ?_, rfl, rfl⟩
    rcases List.mem_cons.1 hy with rfl | hy
    · exact le_refl _
    · have := hc ho y hy
      omega
  · rw [ha]
    exact ⟨hp, fun h => absurd h (lt_irrefl _), rfl, rfl⟩

theorem paced_step (e : TickEnv) (s s1 : Loop) (hP : Paced s) (ht : tick e s = .next s1) :
    Paced s1 := by
  obtain ⟨r, -, -, rfl⟩ := tick_next e s s1 ht
  obtain ⟨hp, hc, hd, hk⟩ := admission_paced e s hP
  obtain ⟨rn, -, rd, rc, ra, -⟩ := reports_locals (watch (admission e s)).1
  obtain ⟨-, -, rnc, -⟩ := reports_watch_config (admission e s)
  have wl : (watch (admission e s)).1.num_connected = (admission e s).num_connected ∧
      (watch (admission e s)).1.tv_delay_usec = (admission e s).tv_delay_usec ∧
      (watch (admission e s)).1.clock_us = (admission e s).clock_us ∧
      (watch (admission e s)).1.admitted_at = (admission e s).admitted_at := by
    simp [watch]
  obtain ⟨w1, w2, w3, w4⟩ := wl
  refine ⟨?_, ?_⟩
  · simp only
    rw [ra, w4, rd, w2, hd]
    exact hp
  · simp only
    rw [ra, w4, rd, w2, hd, rc, w3, hk, rn, w1, rnc]
    intro hopen y hy
    have h1 := hc hopen y hy
    have h2 : pause (reports (watch (admission e s)).1) = s.tv_delay_usec.toNat := by
      unfold pause
      rw [rn, w1, rnc, if_pos hopen, rd, w2, hd]
    rw [h2]
    omega

theorem tick_leave_log (e : TickEnv) (s s1 : Loop) (why : LoopExit)
    (h : tick e s = .leave s1 why) :
    s1.admitted_at = (admission e s).admitted_at ∧ s1.tv_delay_usec = s.tv_delay_usec := by
  obtain ⟨-, -, rd, -, ra, -⟩ := reports_locals (watch (admission e s)).1
  have wl : (watch (admission e s)).1.tv_delay_usec = (admission e s).tv_delay_usec ∧
      (watch (admission e s)).1.admitted_at = (admission e s).admitted_at := by
    simp [watch]
  rcases tick_leave e s s1 why h with ⟨x, -, rfl⟩ | ⟨-, -, -, rfl⟩
  · exact ⟨by simp only; rw [ra, wl.2], by simp only; rw [rd, wl.1, (admission_config e s).2.2]⟩
  · exact ⟨by simp only; rw [ra, wl.2], by simp only; rw [rd, wl.1, (admission_config e s).2.2]⟩

/-- In every state of a run, stopped or not, two admissions are at least the
pause apart. -/
theorem run_paced (envs : List TickEnv) (s0 s : Loop) (hP : Paced s0)
    (h : (run envs s0).state = some s) :
    s.admitted_at.Pairwise (fun later earlier => earlier + s0.tv_delay_usec.toNat ≤ later) := by
  induction envs generalizing s0 with
  | nil =>
    simp only [run, Outcome.state, Option.some.injEq] at h
    subst h
    exact hP.1
  | cons e es ih =>
    simp only [run] at h
    cases ht : tick e s0 with
    | next s2 =>
      rw [ht] at h
      have := ih s2 (paced_step e s0 s2 hP ht) h
      rwa [(tick_next_config e s0 s2 ht).2.2.2.1] at this
    | leave s2 w =>
      rw [ht] at h
      simp only [Outcome.state, Option.some.injEq] at h
      subst h
      rw [(tick_leave_log e s0 s2 w ht).1]
      exact (admission_paced e s0 hP).1
    | trap =>
      rw [ht] at h
      simp [Outcome.state] at h

/-- Whatever the time a turn takes.  For every rate `r > 0` and every state
of a run of `run_test`: two admissions are at least `1000000 / r`
microseconds (integer division) apart; hence the number `c` of admissions within any window of one
second satisfies `c * (1000000 / r) < 1000000 + 1000000 / r`; and when `r`
divides `1000000` that number is at most `r`. -/
theorem admissions_paced (t : SlowHTTPTest) (hr : 0 < t.delay_) (envs : List TickEnv)
    (s : Loop) (h : (run_test t envs).state = some s) :
    s.admitted_at.Pairwise
        (fun later earlier => earlier + (Int.tdiv 1000000 t.delay_).toNat ≤ later) ∧
      (∀ from_us, admitted_within from_us s.admitted_at * (Int.tdiv 1000000 t.delay_).toNat
          < 1000000 + (Int.tdiv 1000000 t.delay_).toNat) ∧
      (t.delay_ ∣ 1000000 → ∀ from_us, (admitted_within from_us s.admitted_at : Int) ≤ t.delay_) := by
  have hpw : s.admitted_at.Pairwise
      (fun later earlier => earlier + (Int.tdiv 1000000 t.delay_).toNat ≤ later) := by
    unfold run_test at h
    cases hs : run_test_start t with
    | none => simp [hs, Outcome.state] at h
    | some s0 =>
      simp only [hs] at h
      have hd : s0.tv_delay_usec = Int.tdiv 1000000 t.delay_ ∧ s0.admitted_at = [] := by
        unfold run_test_start at hs
        split_ifs at hs
        simp only [Option.some.injEq] at hs
        subst hs
        exact ⟨rfl, rfl⟩
      have := run_paced envs s0 s ⟨by rw [hd.2]; exact List.Pairwise.nil,
        fun _ y hy => by rw [hd.2] at hy; simp at hy⟩ h
      rwa [hd.1] at this
  refine ⟨hpw, fun from_us => window_count _ _ hpw from_us, fun hdiv from_us => ?_⟩
  obtain ⟨q, hq⟩ := hdiv
  have hq0 : 0 < q := by
    by_contra hneg
    have : t.delay_ * q ≤ 0 := Int.mul_nonpos_of_nonneg_of_nonpos (le_of_lt hr) (by omega)
    omega
  have hdq : Int.tdiv 1000000 t.delay_ = q := by
    rw [hq, Int.tdiv_eq_ediv (by positivity) (le_of_lt hr)]
    exact Int.mul_ediv_cancel_left q (ne_of_gt hr)
  have hw := window_count _ _ hpw from_us
  rw [hdq] at hw
  obtain ⟨qn, rfl⟩ : ∃ qn : Nat, q = qn := ⟨q.toNat, by omega⟩
  obtain ⟨rn, hrn⟩ : ∃ rn : Nat, t.delay_ = rn := ⟨t.delay_.toNat, by omega⟩
  rw [hrn] at hq ⊢
  simp only [Int.toNat_ofNat] at hw
  have hq1 : rn * qn = 1000000 := by exact_mod_cast hq.symm
  have : admitted_within from_us s.admitted_at * qn < (rn + 1) * qn := by
    rw [Nat.add_mul, hq1]
    omega
  have := Nat.lt_of_mul_lt_mul_right this
  exact_mod_cast Nat.lt_succ_iff.1 this

/-- What admission does to the facts of `Spaced`. -/
theorem admission_spaced (w : Nat) (e : TickEnv) (s : Loop) (hP : Spaced w s) :
    (admission e s).admitted_at.Pairwise
        (fun later earlier => earlier + (s.tv_delay_usec.toNat + w) ≤ later) ∧
      (((admission e s).num_connected : Int) < (admission e s).self.num_connections_ →
        ∀ y ∈ (admission e s).admitted_at, y ≤ s.clock_us) ∧
      (admission e s).tv_delay_usec = s.tv_delay_usec ∧
      (admission e s).clock_us = s.clock_us := by
  obtain ⟨hp, hc⟩ := hP
  rcases admission_cases e s with ⟨hno, ha⟩ | ⟨ho, -, ha⟩ | ⟨ho, -, ha⟩
  · rw [ha]
    refine ⟨hp, fun h y hy => ?_, rfl, rfl⟩
    have := hc h y hy
    omega
  · rw [ha]
    refine ⟨List.pairwise_cons.2 ⟨hc ho, hp⟩, fun _ y hy => ?_, rfl, rfl⟩
    rcases List.mem_cons.1 hy with rfl | hy
    · exact le_refl _
    · have := hc ho y hy
      omega
  · rw [ha]
    exact ⟨hp, fun h => absurd h (lt_irrefl _), rfl, rfl⟩

/-- The invariant `Spaced w` is kept by every turn that takes at least `w`
microseconds apart from its pause. -/
theorem spaced_step (w : Nat) (e : TickEnv) (s s1 : Loop) (hP : Spaced w s)
    (hw : w ≤ e.work_us) (ht : tick e s = .next s1) : Spaced w s1 := by
  obtain ⟨r, -, -, rfl⟩ := tick_next e s s1 ht
  obtain ⟨hp, hc, hd, hk⟩ := admission_spaced w e s hP
  obtain ⟨rn, -, rd, rc, ra, -⟩ := reports_locals (watch (admission e s)).1
  obtain ⟨-, -, rnc, -⟩ := reports_watch_config (admission e s)
  have wl : (watch (admission e s)).1.num_connected = (admission e s).num_connected ∧
      (watch (admission e s)).1.tv_delay_usec = (admission e s).tv_delay_usec ∧
      (watch (admission e s)).1.clock_us = (admission e s).clock_us ∧
      (watch (admission e s)).1.admitted_at = (admission e s).admitted_at := by
    simp [watch]
  obtain ⟨w1, w2, w3, w4⟩ := wl
  refine ⟨?_, ?_⟩
  · simp only
    rw [ra, w4, rd, w2, hd]
    exact hp
  · simp only
    rw [ra, w4, rd, w2, hd, rc, w3, hk, rn, w1, rnc]
    intro hopen y hy
    have h1 := hc hopen y hy
    have h2 : pause (reports (watch (admission e s)).1) = s.tv_delay_usec.toNat := by
      unfold pause
      rw [rn, w1, rnc, if_pos hopen, rd, w2, hd]
    rw [h2]
    omega

/-- In every state of a run whose turns take at least `w` microseconds each
apart from their pause, two admissions are at least the pause plus `w`
apart. -/
theorem run_spaced (w : Nat) (envs : List TickEnv) (s0 s : Loop) (hP : Spaced w s0)
    (hw : ∀ e ∈ envs, w ≤ e.work_us) (h : (run envs s0).state = some s) :
    s.admitted_at.Pairwise
      (fun later earlier => earlier + (s0.tv_delay_usec.toNat + w) ≤ later) := by
  induction envs generalizing s0 with
  | nil =>
    simp only [run, Outcome.state, Option.some.injEq] at h
    subst h
    exact hP.1
  | cons e es ih =>
    simp only [run] at h
    cases ht : tick e s0 with
    | next s2 =>
      rw [ht] at h
      have := ih s2 (spaced_step w e s0 s2 hP (hw e (List.mem_cons_self _ _)) ht)
        (fun x hx => hw x (List.mem_cons_of_mem _ hx)) h
      rwa [(tick_next_config e s0 s2 ht).2.2.2.1] at this
    | leave s2 why =>
      rw [ht] at h
      simp only [Outcome.state, Option.some.injEq] at h
      subst h
      rw [(tick_leave_log e s0 s2 why ht).1]
      exact (admission_spaced w e s0 hP).1
    | trap =>
      rw [ht] at h
      simp [Outcome.state] at h

/-- C8.  For every rate `r > 0` and every state of a run of `run_test` in
which each turn of the loop takes at least one microsecond of real time
apart from the pause it asks `usleep` for: two admissions are more than
`1000000 / r` microseconds (integer division) apart, and the number of
connections admitted within any window of one second never exceeds `r`. -/
theorem admissions_within_rate (t : SlowHTTPTest) (hr : 0 < t.delay_) (envs : List TickEnv)
    (hw : ∀ e ∈ envs, 1 ≤ e.work_us) (s : Loop) (h : (run_test t envs).state = some s) :
    s.admitted_at.Pairwise
        (fun later earlier => earlier + (Int.tdiv 1000000 t.delay_).toNat + 1 ≤ later) ∧
      ∀ from_us, (admitted_within from_us s.admitted_at : Int) ≤ t.delay_ := by
  have hpw : s.admitted_at.Pairwise
      (fun later earlier => earlier + ((Int.tdiv 1000000 t.delay_).toNat + 1) ≤ later) := by
    unfold run_test at h
    cases hs : run_test_start t with
    | none => simp [hs, Outcome.state] at h
    | some s0 =>
      simp only [hs] at h
      have hd : s0.tv_delay_usec = Int.tdiv 1000000 t.delay_ ∧ s0.admitted_at = [] := by
        unfold run_test_start at hs
        split_ifs at hs
        simp only [Option.some.injEq] at hs
        subst hs
        exact ⟨rfl, rfl⟩
      have := run_spaced 1 envs s0 s ⟨by rw [hd.2]; exact List.Pairwise.nil,
        fun _ y hy => by rw [hd.2] at hy; simp at hy⟩ hw h
      rwa [hd.1] at this
  refine ⟨by simpa [Nat.add_assoc] using hpw, fun from_us => ?_⟩
  have hwc := window_count _ _ hpw from_us
  obtain ⟨rn, hrn⟩ : ∃ rn : Nat, t.delay_ = rn := ⟨t.delay_.toNat, by omega⟩
  rw [hrn] at hwc ⊢
  have hrn0 : 0 < rn := by omega
  have hq : (Int.tdiv 1000000 (rn : Int)).toNat = 1000000 / rn := by
    rw [Int.tdiv_eq_ediv (by decide) (by omega)]
    norm_cast
  rw [hq] at hwc
  have hlt : 1000000 < rn * (1000000 / rn + 1) := Nat.lt_mul_div_succ 1000000 hrn0
  have : admitted_within from_us s.admitted_at ≤ rn := by
    by_contra hc
    have h1 : rn + 1 ≤ admitted_within from_us s.admitted_at := by omega
    have h2 := Nat.mul_le_mul_right (1000000 / rn + 1) h1
    rw [Nat.add_mul] at h2
    omega
  exact_mod_cast this

/-! ## Follow-up sends -/

theorem orderly_run_check_sound (envs : List TickEnv) (s : Loop)
    (h : orderly_run_check envs s = true) : OrderlyRun envs s := by
  induction envs generalizing s with
  | nil => trivial
  | cons e es ih =>
    simp only [orderly_run_check, Bool.and_eq_true, decide_eq_true_eq] at h
    refine ⟨h.1, ?_⟩
    cases ht : tick e s with
    | next s1 =>
      simp only [ht] at h
      exact ih s1 h.2
    | leave s1 w => trivial
    | trap => trivial

theorem state_some (o : Outcome) (h : o.state.isSome = true) : ∃ s, o.state = some s :=
  Option.isSome_iff_exists.1 h

theorem outcome_running (o : Outcome) (h : o.exit = none) (h1 : o.state.isSome = true) :
    ∃ s, o = .running s := by
  cases o with
  | finished s w => simp [Outcome.exit] at h
  | trapped => simp [Outcome.state] at h1
  | running s => exact ⟨s, rfl⟩

/-- C8, at a concrete input: with rate 3 and turns that take 40 microseconds
each apart from their pause of 333333 microseconds, four connections are
admitted at 0, 333373, 666746 and 1000119 microseconds, and no window of one
second holds more than three of them. -/
theorem admissions_within_rate_witness :
    (0 : Int) < (header_object 3 5 1 4 false).delay_ ∧
    (∀ e ∈ rate_three_envs, 1 ≤ e.work_us) ∧
    ∃ s, (run_test (header_object 3 5 1 4 false) rate_three_envs).state = some s ∧
      s.admitted_at = [1000119, 666746, 333373, 0] ∧
      s.admitted_at.Pairwise (fun later earlier => earlier + 333333 + 1 ≤ later) ∧
      ∀ from_us, (admitted_within from_us s.admitted_at : Int) ≤ 3 := by
  obtain ⟨s, hs⟩ := state_some
    (run_test (header_object 3 5 1 4 false) rate_three_envs) (by decide)
  have hlog : (run_test (header_object 3 5 1 4 false) rate_three_envs).state.map
      (fun s => s.admitted_at) = some [1000119, 666746, 333373, 0] := by decide
  rw [hs] at hlog
  have h := admissions_within_rate (header_object 3 5 1 4 false) (by decide) rate_three_envs
    (by decide) s hs
  exact ⟨by decide, by decide, s, hs, by simpa using hlog, h.1, h.2⟩

/-- The pacing at a concrete input: in the run of Scenario A, with rate 50,
admissions are at least 20000 microseconds apart and no window of one second
holds more than 50 of them. -/
theorem admissions_paced_witness :
    (0 : Int) < (header_object 50 5 1 20 false).delay_ ∧
    ∃ s, (run_test (header_object 50 5 1 20 false) scenario_a_envs).state = some s ∧
      s.admitted_at.Pairwise (fun later earlier => earlier + 20000 ≤ later) ∧
      ∀ from_us, (admitted_within from_us s.admitted_at : Int) ≤ 50 := by
  obtain ⟨s, hs⟩ := state_some
    (run_test (header_object 50 5 1 20 false) scenario_a_envs) (by decide)
  have h := admissions_paced (header_object 50 5 1 20 false) (by decide) _ s hs
  exact ⟨by decide, s, hs, h.1, h.2.2 ⟨20000, by decide⟩⟩

/-- C5 as amended, at a concrete input: the first turn of a run reports the
heartbeat of second 0, and the counters then sum to the one object created. -/
theorem counters_sum_at_report_witness :
    Fresh (header_object 1 1 1 3 false) ∧
    ∃ s, run_test (header_object 1 1 1 3 false) [] = .running s ∧
      counters_sum (reports (watch (admission (idle 3 1 0) s)).1).self =
        (admission (idle 3 1 0) s).created ∧
      (admission (idle 3 1 0) s).created = 1 := by
  obtain ⟨s, hs⟩ := outcome_running
    (run_test (header_object 1 1 1 3 false) []) (by decide) (by decide)
  have hc : ((run_test (header_object 1 1 1 3 false) []).state.map fun s =>
      (decide (Int.tmod (watch (admission (idle 3 1 0) s)).1.self.seconds_passed_ 5 = 0 ∧
        (watch (admission (idle 3 1 0) s)).1.heartbeat_reported ≠
          (watch (admission (idle 3 1 0) s)).1.self.seconds_passed_),
        (admission (idle 3 1 0) s).created)) = some (true, 1) := by decide
  rw [hs] at hc
  simp only [Outcome.state, Option.map_some', Option.some.injEq, Prod.mk.injEq,
    decide_eq_true_eq] at hc
  exact ⟨header_object_fresh _ _ _ _ _, s, hs,
    (counters_sum_at_report _ (header_object_fresh _ _ _ _ _) [] s hs (idle 3 1 0)).1
      (Or.inr hc.1), hc.2⟩

/-! ## The final report -/

theorem sample_one_lengths (n : Int) (k : Timestamps) (v : Samples) :
    (sample_one n k v).connect_times.length =
      v.connect_times.length + (if connect_sampled k then 1 else 0) ∧
    (sample_one n k v).life_times.length =
      v.life_times.length + (if life_sampled n k then 1 else 0) := by
  unfold sample_one connect_sampled life_sampled
  dsimp only
  split_ifs <;> simp_all

/-- The number of samples that the loop of `report_final` adds to each
vector is the number of sockets that pass the test for it. -/
theorem sample_loop_lengths (n : Int) (stamps : Nat → Timestamps) (l : List (Option SlowSocket)) :
    ∀ (i : Nat) (v w : Samples), sample_loop n stamps i l v = some w →
      w.connect_times.length = v.connect_times.length +
        (List.range' i l.length).countP (fun j => connect_sampled (stamps j)) ∧
      w.life_times.length = v.life_times.length +
        (List.range' i l.length).countP (fun j => life_sampled n (stamps j)) := by
  induction l with
  | nil =>
    intro i v w h
    simp only [sample_loop, Option.some.injEq] at h
    subst h
    simp
  | cons o rest ih =>
    intro i v w h
    cases o with
    | none => simp [sample_loop] at h
    | some k =>
      simp only [sample_loop] at h
      obtain ⟨h1, h2⟩ := ih (i + 1) _ w h
      obtain ⟨h3, h4⟩ := sample_one_lengths n (stamps i) v
      rw [h1, h2, h3, h4, List.length_cons, List.range'_succ, List.countP_cons, List.countP_cons]
      constructor <;> omega

/-- The loop of `report_final` runs through exactly when no entry of `sock_`
is null. -/
theorem sample_loop_defined (n : Int) (stamps : Nat → Timestamps) (l : List (Option SlowSocket)) :
    ∀ (i : Nat) (v : Samples),
      (∃ w, sample_loop n stamps i l v = some w) ↔ ∀ o ∈ l, o ≠ none := by
  induction l with
  | nil =>
    intro i v
    simp [sample_loop]
  | cons o rest ih =>
    intro i v
    cases o with
    | none => simp [sample_loop]
    | some k =>
      simp only [sample_loop, ih, List.mem_cons, forall_eq_or_imp, ne_eq, reduceCtorEq,
        not_false_eq_true, true_and]

theorem average_defined (v : List Int) : (∃ x, average v = some x) ↔ v.length ≠ 0 := by
  unfold average
  split_ifs with h <;> simp [h]

/-- When `report_final` is defined: no entry of `sock_` is null, some socket
has a nonzero creation and a nonzero connected timestamp, and some socket
gives a lifetime sample.  In every other end state it dereferences a null
pointer or divides by zero. -/
theorem report_final_defined (t : SlowHTTPTest) (stamps : Nat → Timestamps) (n : Int) :
    (∃ r, report_final t stamps n = some r) ↔
      (∀ o ∈ t.sock_, o ≠ none) ∧
      (∃ i, i < t.sock_.length ∧ connect_sampled (stamps i) = true) ∧
      (∃ i, i < t.sock_.length ∧ life_sampled n (stamps i) = true) := by
  have hc : ∀ p : Nat → Bool, (List.range' 0 t.sock_.length).countP p ≠ 0 ↔
      ∃ i, i < t.sock_.length ∧ p i = true := by
    intro p
    rw [Nat.ne_zero_iff_zero_lt, List.countP_pos_iff]
    simp [List.mem_range']
  rw [← sample_loop_defined n stamps t.sock_ 0 { connect_times := [], life_times := [] },
    ← hc, ← hc]
  unfold report_final
  cases hs : sample_loop n stamps 0 t.sock_ { connect_times := [], life_times := [] } with
  | none => simp
  | some v =>
    obtain ⟨h1, h2⟩ := sample_loop_lengths n stamps t.sock_ 0 _ v hs
    simp only [List.length_nil, Nat.zero_add] at h1 h2
    rw [← h1, ← h2, ← average_defined, ← average_defined]
    cases ha : average v.connect_times <;> cases hb : average v.life_times <;> simp [ha, hb]

/-- When no connection has a nonzero connected timestamp, `report_final` is
undefined, whatever the other timestamps, the clock and the object are. -/
theorem report_final_never_connected (t : SlowHTTPTest) (stamps : Nat → Timestamps) (n : Int)
    (h : ∀ i, i < t.sock_.length → (stamps i).connected = 0) :
    report_final t stamps n = none := by
  cases hr : report_final t stamps n with
  | none => rfl
  | some r =>
    obtain ⟨-, ⟨i, hi, hs⟩, -⟩ := (report_final_defined t stamps n).1 ⟨r, hr⟩
    simp [connect_sampled, h i hi] at hs

/-- Two averages as `report_final` computes them. -/
theorem average_values :
    average [35] = some 35 ∧ average [1000, 11480] = some 6240 := by
  unfold average accumulate to_size_t
  simp only [List.foldl]
  unfold to_int
  constructor <;> decide

/-- The run of `refused_envs`, in which one connection was established and
closed after one second and the other was still pending 11.48 seconds after
its creation: `report_final` reports second 11, the label of
`eConnectionRefused`, and the averages 35 and 6240 milliseconds. -/
theorem report_final_refused :
    (run_test (header_object 50 30 10 2 false) refused_envs).state.map
      (fun s => report_final s.self (refused_stamps 1700000000000) 1700000011500)
      = some (some { seconds_passed := 11, status := "Connection refused"
                     average_connect_time := 35, average_lifetime := 6240 }) := by
  have hs : (run_test (header_object 50 30 10 2 false) refused_envs).state.map
      (fun s => (sample_loop 1700000011500 (refused_stamps 1700000000000) 0 s.self.sock_
          { connect_times := [], life_times := [] },
        s.self.seconds_passed_, report_final_status s.self))
      = some (some { connect_times := [35], life_times := [1000, 11480] },
          11, "Connection refused") := by
    decide
  cases hr : (run_test (header_object 50 30 10 2 false) refused_envs).state with
  | none =>
    rw [hr] at hs
    simp at hs
  | some s =>
    rw [hr] at hs
    simp only [Option.map_some', Option.some.injEq, Prod.mk.injEq] at hs
    obtain ⟨ha, hb, hc⟩ := hs
    simp only [Option.map_some', report_final, ha, hb, hc, average_values.1, average_values.2]

/-- C11, evaluated on the code.  Scenario A against a host that never answers
ends by the time limit with twenty sockets, none of which has a connected
timestamp: the loop of `report_final` (clock 6.1 seconds after the first
socket was created) collects no connect-time sample and twenty lifetime
samples, so the average connect time is a division by `size() = 0`.  With a
hard descriptor limit of 5, `init` reduces the connection count to zero, the
run ends with `eAllClosed` and an empty `sock_`, and both vectors are empty:
both averages divide by zero. -/
theorem report_final_divides_by_zero :
    (scenario_a = some (header_object 50 5 1 20 false) ∧
    (run_test (header_object 50 5 1 20 false) scenario_a_envs).exit = some .timeLimit ∧
    (run_test (header_object 50 5 1 20 false) scenario_a_envs).state.map
      (fun s =>
        ((sample_loop 1700000006100 (pending_stamps 1700000000000) 0 s.self.sock_
            { connect_times := [], life_times := [] }).map
          (fun v => (v.connect_times.length, v.life_times.length,
            (average v.connect_times).isSome)),
        report_final s.self (pending_stamps 1700000000000) 1700000006100))
      = some (some (0, 20, false), none)) ∧
    (prepare 50 5 1 20 68 .eHeader false (fun _ => 0) (fun _ => [])
        (some { rlim_cur := 5, rlim_max := 5 }) true true true
      = some { header_object 50 5 1 20 false with num_connections_ := 0 } ∧
    (run_test { header_object 50 5 1 20 false with num_connections_ := 0 } empty_envs).exit
      = some .allClosed ∧
    (run_test { header_object 50 5 1 20 false with num_connections_ := 0 } empty_envs).state.map
      (fun s =>
        ((sample_loop 1700000006100 (pending_stamps 1700000000000) 0 s.self.sock_
            { connect_times := [], life_times := [] }).map
          (fun v => (v.connect_times.length, v.life_times.length,
            (average v.connect_times).isSome, (average v.life_times).isSome)),
        report_final s.self (pending_stamps 1700000000000) 1700000006100))
      = some (some (0, 0, false, false), none)) := by
  refine ⟨⟨?_, ?_, ?_⟩, ?_, ?_, ?_⟩
  · with_unfolding_all decide
  · decide
  · decide
  · with_unfolding_all decide
  · decide
  · decide

/-- The undefined case at a concrete input: the end state of Scenario A with
twenty connections that were never established. -/
theorem report_final_never_connected_witness :
    ∃ s, run_test (header_object 50 5 1 20 false) scenario_a_envs = .finished s .timeLimit ∧
      report_final s.self (pending_stamps 1700000000000) 1700000006100 = none := by
  obtain ⟨s, hs⟩ := outcome_of_exit
    (run_test (header_object 50 5 1 20 false) scenario_a_envs) .timeLimit (by decide)
  exact ⟨s, hs, report_final_never_connected _ _ _ (fun _ _ => rfl)⟩

end slowhttptest
